import Mathlib

/-!
# Content generator: the record store of `app.js`

A shallow embedding of section 2 of `src/app.js` ("STORAGE SYSTEM (Data SDK +
localStorage fallback)", lines 141-229) and of the `btn-save` click handler
(lines 542-607), followed by theorems about them.

* JavaScript strings are lists of UTF-16 code units (`length`, `substring`
  and `substr` count code units).
* The four module-level variables and the `localStorage` slot under
  `STORAGE_KEY` form the `State`; a handler is a function from the state to
  the next state and the list of its visible effects.
* What the platform decides (clock, random source, storage faults, the data
  SDK's answers, DOM faults of the renderer) is a parameter of the handlers.
* `JSON.parse` and `JSON.stringify` are embedded following ECMA-404 and
  ECMA-262 (24.5); a number is kept as its token, and how the platform prints
  it back is a parameter.
* Console output (`console.log`, `console.error`) is not recorded.
-/

namespace ContentGenerator

/-! ## Strings -/

/-- A JavaScript string, as its sequence of UTF-16 code units. -/
abbrev JSString := List Nat

/-- The code units of a literal of the source text. -/
def lit (s : String) : JSString := s.toList.map Char.toNat

/-- Decimal digits of a natural number, most significant first
(`fuel` bounds the number of digits). -/
def decDigits : Nat → Nat → JSString → JSString
  | 0, _, acc => acc
  | fuel + 1, n, acc =>
    if n < 10 then (48 + n) :: acc
    else decDigits fuel (n / 10) ((48 + n % 10) :: acc)

/-- `String(n)` for an integer `n` (as in `'local_' + Date.now()`): plain
decimal digits, with a leading minus sign below zero. -/
def numberToString : Int → JSString
  | Int.ofNat n => decDigits (n + 1) n []
  | Int.negSucc n => 45 :: decDigits (n + 2) (n + 1) []

/-! ## JSON values -/

/-- The values `JSON.parse` can produce. An object is the list of its own
properties in enumeration order; a number is kept as the token it was read
from. -/
inductive JSValue where
  | null
  | bool (b : Bool)
  | number (tok : JSString)
  | string (s : JSString)
  | array (xs : List JSValue)
  | object (props : List (JSString × JSValue))

/-- JSON whitespace: tab, line feed, carriage return, space. -/
def isWs (c : Nat) : Bool := c == 9 || c == 10 || c == 13 || c == 32

def skipWs : JSString → JSString
  | [] => []
  | c :: cs => if isWs c then skipWs cs else c :: cs

def isDigit (c : Nat) : Bool := decide (48 ≤ c) && decide (c ≤ 57)

/-- Value of a hexadecimal digit, upper or lower case. -/
def hexVal (c : Nat) : Option Nat :=
  if 48 ≤ c ∧ c ≤ 57 then some (c - 48)
  else if 97 ≤ c ∧ c ≤ 102 then some (c - 87)
  else if 65 ≤ c ∧ c ≤ 70 then some (c - 55)
  else none

def hex4 (a b c d : Nat) : Option Nat :=
  match hexVal a, hexVal b, hexVal c, hexVal d with
  | some x, some y, some z, some w => some (x * 4096 + y * 256 + z * 16 + w)
  | _, _, _, _ => none

/-- The code unit denoted by a one-letter escape: quote, backslash, slash,
b, f, n, r, t. -/
def unescape (e : Nat) : Option Nat :=
  if e = 34 then some 34
  else if e = 92 then some 92
  else if e = 47 then some 47
  else if e = 98 then some 8
  else if e = 102 then some 12
  else if e = 110 then some 10
  else if e = 114 then some 13
  else if e = 116 then some 9
  else none

/-- Reads a JSON string after its opening quote: the decoded string and the
input after the closing quote. -/
def parseChars : JSString → Option (JSString × JSString)
  | [] => none
  | c :: cs =>
    if c = 34 then some ([], cs)
    else if c = 92 then
      match cs with
      | [] => none
      | e :: r =>
        if e = 117 then
          match r with
          | h1 :: h2 :: h3 :: h4 :: r4 =>
            match hex4 h1 h2 h3 h4 with
            | some u => (parseChars r4).map (fun p => (u :: p.1, p.2))
            | none => none
          | _ => none
        else
          match unescape e with
          | some u => (parseChars r).map (fun p => (u :: p.1, p.2))
          | none => none
    else if c < 32 then none
    else (parseChars cs).map (fun p => (c :: p.1, p.2))

/-- Splits off the longest run of decimal digits. -/
def spanDigits : JSString → JSString × JSString
  | [] => ([], [])
  | c :: cs =>
    if isDigit c then ((c :: (spanDigits cs).1), (spanDigits cs).2)
    else ([], c :: cs)

/-- Integer part of a JSON number: `0`, or a non-zero digit and more digits. -/
def parseInt : JSString → Option (JSString × JSString)
  | [] => none
  | d :: r =>
    if d = 48 then some ([48], r)
    else if isDigit d then some (d :: (spanDigits r).1, (spanDigits r).2)
    else none

/-- Optional fraction: a dot and at least one digit. -/
def parseFrac : JSString → Option (JSString × JSString)
  | 46 :: r =>
    match spanDigits r with
    | ([], _) => none
    | (ds, r1) => some (46 :: ds, r1)
  | s => some ([], s)

/-- Optional exponent: `e` or `E`, an optional sign, at least one digit. -/
def parseExp : JSString → Option (JSString × JSString)
  | [] => some ([], [])
  | e :: r =>
    if e = 101 ∨ e = 69 then
      match r with
      | [] => none
      | s :: r1 =>
        if s = 43 ∨ s = 45 then
          match spanDigits r1 with
          | ([], _) => none
          | (ds, r2) => some (e :: s :: ds, r2)
        else
          match spanDigits (s :: r1) with
          | ([], _) => none
          | (ds, r2) => some (e :: ds, r2)
    else some ([], e :: r)

/-- Reads a JSON number token. -/
def parseNumber (s : JSString) : Option (JSString × JSString) :=
  let signed : JSString × JSString :=
    match s with
    | 45 :: r => ([45], r)
    | _ => ([], s)
  match parseInt signed.2 with
  | none => none
  | some (i, r1) =>
    match parseFrac r1 with
    | none => none
    | some (f, r2) =>
      match parseExp r2 with
      | none => none
      | some (e, r3) => some (signed.1 ++ i ++ f ++ e, r3)

/-- Strips the given literal from the front of the input. -/
def expect : JSString → JSString → Option JSString
  | [], s => some s
  | _ :: _, [] => none
  | a :: as, c :: cs => if a = c then expect as cs else none

def digitsValue (s : JSString) : Nat := s.foldl (fun a c => a * 10 + (c - 48)) 0

/-- Array index keys: canonical decimal strings below `2^32 - 1`. An object
enumerates them first, in ascending order. -/
def isArrayIndex (k : JSString) : Bool :=
  !k.isEmpty && k.all isDigit && (k.length == 1 || k.head? != some 48)
    && decide (digitsValue k < 4294967295)

/-- Insertion of an index key among the index keys, in ascending order. -/
def insertIndex (k : JSString) (v : JSValue) :
    List (JSString × JSValue) → List (JSString × JSValue)
  | [] => [(k, v)]
  | p :: ps =>
    if isArrayIndex p.1 && decide (digitsValue p.1 < digitsValue k)
    then p :: insertIndex k v ps
    else (k, v) :: p :: ps

/-- Definition of a data property on an object (`CreateDataProperty`): an
existing key keeps its place and takes the new value, an array index goes
among the indices, any other key goes last. -/
def setProp (ps : List (JSString × JSValue)) (k : JSString) (v : JSValue) :
    List (JSString × JSValue) :=
  if ps.any (fun p => p.1 == k) then
    ps.map (fun p => if p.1 == k then (p.1, v) else p)
  else if isArrayIndex k then insertIndex k v ps
  else ps ++ [(k, v)]

mutual
/-- Reads one JSON value at the head of the input (leading whitespace
already skipped). -/
def parseValue : Nat → JSString → Option (JSValue × JSString)
  | 0, _ => none
  | _ + 1, [] => none
  | fuel + 1, c :: cs =>
    if c = 34 then (parseChars cs).map (fun p => (JSValue.string p.1, p.2))
    else if c = 91 then
      match skipWs cs with
      | [] => none
      | d :: r =>
        if d = 93 then some (JSValue.array [], r)
        else (parseElems fuel (d :: r)).map (fun p => (JSValue.array p.1, p.2))
    else if c = 123 then
      match skipWs cs with
      | [] => none
      | d :: r =>
        if d = 125 then some (JSValue.object [], r)
        else (parseMembers fuel (d :: r) []).map (fun p => (JSValue.object p.1, p.2))
    else if c = 116 then (expect [114, 117, 101] cs).map (fun r => (JSValue.bool true, r))
    else if c = 102 then
      (expect [97, 108, 115, 101] cs).map (fun r => (JSValue.bool false, r))
    else if c = 110 then (expect [117, 108, 108] cs).map (fun r => (JSValue.null, r))
    else (parseNumber (c :: cs)).map (fun p => (JSValue.number p.1, p.2))
/-- Reads the elements of a non-empty array up to and including `]`. -/
def parseElems : Nat → JSString → Option (List JSValue × JSString)
  | 0, _ => none
  | fuel + 1, s =>
    match parseValue fuel s with
    | none => none
    | some (v, r) =>
      match skipWs r with
      | [] => none
      | d :: r1 =>
        if d = 44 then (parseElems fuel (skipWs r1)).map (fun p => (v :: p.1, p.2))
        else if d = 93 then some ([v], r1)
        else none
/-- Reads the members of a non-empty object up to and including the closing
brace, defining each property in turn on the object built so far. -/
def parseMembers : Nat → JSString → List (JSString × JSValue) →
    Option (List (JSString × JSValue) × JSString)
  | 0, _, _ => none
  | _ + 1, [], _ => none
  | fuel + 1, q :: s1, acc =>
    if q = 34 then
      match parseChars s1 with
      | none => none
      | some (k, r) =>
        match skipWs r with
        | [] => none
        | col :: r1 =>
          if col = 58 then
            match parseValue fuel (skipWs r1) with
            | none => none
            | some (v, r2) =>
              match skipWs r2 with
              | [] => none
              | d :: r3 =>
                if d = 44 then parseMembers fuel (skipWs r3) (setProp acc k v)
                else if d = 125 then some (setProp acc k v, r3)
                else none
          else none
    else none
end

/-- `JSON.parse(text)`: `none` stands for the `SyntaxError` it throws. The
fuel covers every nesting the text can hold. -/
def JSON.parse (text : JSString) : Option JSValue :=
  match parseValue (2 * text.length + 2) (skipWs text) with
  | none => none
  | some (v, rest) => if (skipWs rest).isEmpty then some v else none

/-! ### Serialisation -/

/-- Lower-case hexadecimal digit. -/
def hexDigit (n : Nat) : Nat := if n < 10 then 48 + n else 87 + n

def unicodeEscape (c : Nat) : JSString :=
  [92, 117, hexDigit (c / 4096 % 16), hexDigit (c / 256 % 16),
    hexDigit (c / 16 % 16), hexDigit (c % 16)]

def isHighSurrogate (c : Nat) : Bool := decide (55296 ≤ c) && decide (c ≤ 56319)

def isLowSurrogate (c : Nat) : Bool := decide (56320 ≤ c) && decide (c ≤ 57343)

/-- Quoting of one code unit that is not half of a surrogate pair
(`QuoteJSONString`): the short escapes, a `\u` escape for the other control
characters and for a lone surrogate, the code unit itself otherwise. -/
def quoteUnit (c : Nat) : JSString :=
  if c = 8 then [92, 98]
  else if c = 9 then [92, 116]
  else if c = 10 then [92, 110]
  else if c = 12 then [92, 102]
  else if c = 13 then [92, 114]
  else if c = 34 then [92, 34]
  else if c = 92 then [92, 92]
  else if c < 32 ∨ (55296 ≤ c ∧ c ≤ 57343) then unicodeEscape c
  else [c]

def quoteBody : JSString → JSString
  | [] => []
  | [c] => quoteUnit c
  | c :: d :: r =>
    if isHighSurrogate c && isLowSurrogate d then c :: d :: quoteBody r
    else quoteUnit c ++ quoteBody (d :: r)

def quoteJSONString (s : JSString) : JSString := 34 :: (quoteBody s ++ [34])

mutual
/-- `JSON.stringify(v)` with no replacer and no indentation. `fmt` is the
platform's printing of the number read from a token. -/
def JSON.stringify (fmt : JSString → JSString) : JSValue → JSString
  | .null => [110, 117, 108, 108]
  | .bool b => if b then [116, 114, 117, 101] else [102, 97, 108, 115, 101]
  | .number tok => fmt tok
  | .string s => quoteJSONString s
  | .array xs => 91 :: (stringifyElems fmt xs ++ [93])
  | .object ps => 123 :: (stringifyMembers fmt ps ++ [125])
def stringifyElems (fmt : JSString → JSString) : List JSValue → JSString
  | [] => []
  | x :: r =>
    JSON.stringify fmt x ++ (if r.isEmpty then [] else 44 :: stringifyElems fmt r)
def stringifyMembers (fmt : JSString → JSString) : List (JSString × JSValue) → JSString
  | [] => []
  | (k, v) :: r =>
    quoteJSONString k ++ 58 :: (JSON.stringify fmt v ++
      (if r.isEmpty then [] else 44 :: stringifyMembers fmt r))
end

/-! ## JavaScript coercions used by the source -/

/-- The operator `x || d` on a string that may be `undefined` (`none`): the
empty string and `undefined` are falsy. -/
def jsOr (x : Option JSString) (d : JSString) : JSString :=
  match x with
  | none => d
  | some s => if s.isEmpty then d else s

/-- Truthiness of a value (`ToBoolean`); `isZero` tells whether a number
token denotes zero. -/
def JSValue.truthy (isZero : JSString → Bool) : JSValue → Bool
  | .null => false
  | .bool b => b
  | .number tok => !isZero tok
  | .string s => !s.isEmpty
  | .array _ => true
  | .object _ => true

/-- Own property of an object. -/
def getProp (ps : List (JSString × JSValue)) (k : JSString) : Option JSValue :=
  (ps.find? (fun p => p.1 == k)).map (fun p => p.2)

/-! ## Data model -/

/-- The object built by `generateAllContent` (lines 378-393): five form
values, the arrays of titles and thumbnails, and three generated texts. The
`timestamp` that regeneration adds (line 525) is never read by the save
handler and is left out. -/
structure Content where
  topic : JSString
  tone : JSString
  audience : JSString
  keywords : JSString
  videoType : JSString
  titles : List JSString
  description : JSString
  hashtags : JSString
  thumbnails : List JSString
  script : JSString

/-- The object literal `payload` of the save handler (lines 568-583), field
by field in source order. -/
structure Payload where
  topic : JSString
  tone : JSString
  audience : JSString
  keywords : JSString
  video_type : JSString
  title_1 : JSString
  title_2 : JSString
  title_3 : JSString
  description : JSString
  hashtags : JSString
  thumbnail_1 : JSString
  thumbnail_2 : JSString
  script : JSString
  created_at : JSString

/-- Own properties of the payload object, in creation order. -/
def Payload.props (x : Payload) : List (JSString × JSValue) :=
  [(lit "topic", .string x.topic), (lit "tone", .string x.tone),
   (lit "audience", .string x.audience), (lit "keywords", .string x.keywords),
   (lit "video_type", .string x.video_type), (lit "title_1", .string x.title_1),
   (lit "title_2", .string x.title_2), (lit "title_3", .string x.title_3),
   (lit "description", .string x.description), (lit "hashtags", .string x.hashtags),
   (lit "thumbnail_1", .string x.thumbnail_1), (lit "thumbnail_2", .string x.thumbnail_2),
   (lit "script", .string x.script), (lit "created_at", .string x.created_at)]

def Payload.toJS (x : Payload) : JSValue := .object x.props

/-- A stored record: the payload fields and the identity `__backendId`. -/
structure Record where
  fields : Payload
  backendId : JSString

def Record.toJS (r : Record) : JSValue :=
  .object (r.fields.props ++ [(lit "__backendId", .string r.backendId)])

/-- The list of records as a JavaScript array. -/
def recordList (rs : List Record) : JSValue := .array (rs.map Record.toJS)

/-- The module-level variables of section 2 (lines 144-147) and the content
of the `localStorage` slot named by `STORAGE_KEY` (`none`: no such item). -/
structure State where
  currentRecords : JSValue
  lastGeneratedContent : Option Content
  dataSdkReady : Bool
  useLocalStorage : Bool
  storage : Option JSString

/-- What the platform decides during one handler run. -/
structure Platform where
  /-- `Date.now()`. -/
  now : Int
  /-- `new Date().toISOString()`. -/
  isoNow : JSString
  /-- `Math.random().toString(36)`. -/
  randomText : JSString
  /-- Whether access to `localStorage` is refused (`getItem` and `setItem`
  both raise). -/
  storageDenied : Bool
  /-- Whether the quota lets `localStorage.setItem` store this value. -/
  canStore : JSString → Bool
  /-- The text `JSON.stringify` prints for the number read from a token. -/
  numberText : JSString → JSString
  /-- Whether a number token denotes zero. -/
  numberIsZero : JSString → Bool
  /-- The message of the error `renderHistoryList` raises on this value of
  `currentRecords`, if it raises one. -/
  renderFault : JSValue → Option JSString
  /-- The message of the `TypeError` of `records.push(..)` on a value that is
  not an array. -/
  pushFault : JSValue → JSString
  /-- The outcome of `v >= 999` for the value `v` of an own property `length`
  of an object (`none`: the conversion to a number raises). -/
  lengthCompare : JSValue → Option Bool

/-- What the handlers do to the outside, in program order. -/
inductive Effect where
  /-- `showToast(message, isError)`. -/
  | toast (message : JSString) (isError : Bool)
  /-- A call of `renderHistoryList()` with this value of `currentRecords`. -/
  | render (records : JSValue)
  /-- A call of `window.dataSdk.create(payload)`. -/
  | create (payload : JSValue)
  /-- The save button: its `disabled` flag and its label. -/
  | saveButton (disabled : Bool) (label : JSString)
  /-- An error that leaves the handler uncaught. -/
  | uncaught

/-- How `await window.dataSdk.create(payload)` ends: a result with `isOk`, a
result without it (with `result.error?.message`, if any), or a raised error
(with its `message`). -/
inductive CreateOutcome where
  | ok
  | notOk (message : Option JSString)
  | fault (message : JSString)

/-- How `await window.dataSdk.init(dataHandler)` ends. -/
inductive InitOutcome where
  | ok
  | notOk
  | fault

/-- The data SDK at start-up: absent, or present with the change
notifications it delivers while `init` is awaited (`none`: `undefined`) and
the outcome of `init`. -/
inductive Sdk where
  | absent
  | present (during : List (Option JSValue)) (outcome : InitOutcome)

/-! ## Section 2 of `app.js`: storage -/

/-- Lines 152-160. -/
def loadFromLocalStorage (p : Platform) (storage : Option JSString) : JSValue :=
  if p.storageDenied then .array []
  else
    match storage with
    | none => .array []
    | some data =>
      if data.isEmpty then .array []
      else
        match JSON.parse data with
        | some v => v
        | none => .array []

/-- Lines 162-170: the slot after the call, and the returned flag. -/
def saveToLocalStorage (p : Platform) (storage : Option JSString) (records : JSValue) :
    Option JSString × Bool :=
  if !p.storageDenied && p.canStore (JSON.stringify p.numberText records)
  then (some (JSON.stringify p.numberText records), true)
  else (storage, false)

/-- The identity of line 176. -/
def localBackendId (p : Platform) : JSString :=
  lit "local_" ++ numberToString p.now ++ lit "_" ++ (p.randomText.drop 2).take 9

/-- The object `{ ...record, __backendId: .. }` of lines 174-177. -/
def newRecord (p : Platform) (record : Payload) : JSValue :=
  .object (setProp record.props (lit "__backendId") (.string (localBackendId p)))

/-- Lines 172-181: the slot after the call and the returned record, or the
message of the `TypeError` of `records.push` when what was loaded is not an
array. The flag returned by `saveToLocalStorage` is dropped (line 179). -/
def addToLocalStorage (p : Platform) (storage : Option JSString) (record : Payload) :
    Except JSString (Option JSString × JSValue) :=
  match loadFromLocalStorage p storage with
  | .array records =>
    .ok ((saveToLocalStorage p storage (.array (records ++ [newRecord p record]))).1,
      newRecord p record)
  | v => .error (p.pushFault v)

/-- The effects of one call of `renderHistoryList()` (lines 678-713). -/
def renderHistoryList (p : Platform) (records : JSValue) : List Effect :=
  match p.renderFault records with
  | none => [.render records]
  | some _ => [.render records, .uncaught]

/-- Lines 184-189, `dataHandler.onDataChanged(data)`. -/
def onDataChanged (p : Platform) (data : Option JSValue) (st : State) : State × List Effect :=
  let records : JSValue :=
    match data with
    | none => .array []
    | some v => if v.truthy p.numberIsZero then v else .array []
  ({ st with currentRecords := records }, renderHistoryList p records)

/-- The three fallback blocks of `initDataSdk` (lines 194-198, 210-213,
217-220). -/
def fallBack (p : Platform) (st : State) : State :=
  { st with
    useLocalStorage := true
    dataSdkReady := true
    currentRecords := loadFromLocalStorage p st.storage }

/-- The change notifications delivered while `init` is awaited. -/
def deliver (p : Platform) : List (Option JSValue) → State → State × List Effect
  | [], st => (st, [])
  | d :: ds, st =>
    ((deliver p ds (onDataChanged p d st).1).1,
      (onDataChanged p d st).2 ++ (deliver p ds (onDataChanged p d st).1).2)

/-- Lines 191-222. When the renderer raises inside the `try` (the not-ok
branch), the `catch` block runs the fallback a second time. -/
def initDataSdk (p : Platform) (sdk : Sdk) (st : State) : State × List Effect :=
  match sdk with
  | .absent => (fallBack p st, renderHistoryList p (fallBack p st).currentRecords)
  | .present during outcome =>
    let st1 := (deliver p during st).1
    let seen := (deliver p during st).2
    match outcome with
    | .ok => ({ st1 with dataSdkReady := true, useLocalStorage := false }, seen)
    | .notOk =>
      match p.renderFault (fallBack p st1).currentRecords with
      | none => (fallBack p st1, seen ++ [.render (fallBack p st1).currentRecords])
      | some _ =>
        (fallBack p (fallBack p st1),
          seen ++ .render (fallBack p st1).currentRecords ::
            renderHistoryList p (fallBack p (fallBack p st1)).currentRecords)
    | .fault => (fallBack p st1, seen ++ renderHistoryList p (fallBack p st1).currentRecords)

/-! ## Section 8 of `app.js`: the save handler -/

/-- Lines 563-566. -/
def truncate (str : JSString) (maxLength : Nat) : JSString :=
  if str.isEmpty then []
  else if str.length > maxLength then str.take maxLength else str

/-- Lines 568-583. -/
def buildPayload (c : Content) (isoNow : JSString) : Payload :=
  { topic := truncate (jsOr (some c.topic) (lit "Untitled")) 200
    tone := jsOr (some c.tone) (lit "Motivational")
    audience := jsOr (some c.audience) (lit "Everyone")
    keywords := truncate (jsOr (some c.keywords) []) 200
    video_type := jsOr (some c.videoType) (lit "Long Video")
    title_1 := truncate (jsOr (c.titles.get? 0) []) 300
    title_2 := truncate (jsOr (c.titles.get? 1) []) 300
    title_3 := truncate (jsOr (c.titles.get? 2) []) 300
    description := truncate (jsOr (some c.description) []) 1000
    hashtags := truncate (jsOr (some c.hashtags) []) 500
    thumbnail_1 := truncate (jsOr (c.thumbnails.get? 0) []) 300
    thumbnail_2 := truncate (jsOr (c.thumbnails.get? 1) []) 300
    script := truncate (jsOr (some c.script) []) 2000
    created_at := isoNow }

/-- The test `currentRecords.length >= 999` of line 553 (`none`: it raises).
Reading `length` raises on `null`, gives `undefined` on a boolean, a number
and an object without that property, and the number of code units on a
string. -/
def capacityReached (p : Platform) : JSValue → Option Bool
  | .array xs => some (decide (xs.length ≥ 999))
  | .null => none
  | .bool _ => some false
  | .number _ => some false
  | .string s => some (decide (s.length ≥ 999))
  | .object ps =>
    match getProp ps (lit "length") with
    | none => some false
    | some v => p.lengthCompare v

def savingLabel : Effect := .saveButton true (lit "Saving...")

def idleLabel : Effect := .saveButton false (lit "Save to History")

/-- Lines 585-600 and the `catch` of 601-603, local branch. -/
def saveLocal (p : Platform) (payload : Payload) (st : State) : State × List Effect :=
  match addToLocalStorage p st.storage payload with
  | .error msg =>
    (st, [savingLabel, .toast (lit "Error saving: " ++ msg) true, idleLabel])
  | .ok (storage, _) =>
    let st1 : State :=
      { st with storage := storage, currentRecords := loadFromLocalStorage p storage }
    match p.renderFault st1.currentRecords with
    | some msg =>
      (st1, [savingLabel, .render st1.currentRecords,
        .toast (lit "Error saving: " ++ msg) true, idleLabel])
    | none =>
      (st1, [savingLabel, .render st1.currentRecords,
        .toast (lit "Saved to local history successfully!") false, idleLabel])

/-- Lines 591-600 and the `catch` of 601-603, remote branch. -/
def saveRemote (remote : CreateOutcome) (payload : Payload) (st : State) :
    State × List Effect :=
  match remote with
  | .ok =>
    (st, [savingLabel, .create payload.toJS,
      .toast (lit "Saved to history successfully!") false, idleLabel])
  | .notOk message =>
    (st, [savingLabel, .create payload.toJS,
      .toast (lit "Failed to save: " ++ jsOr message (lit "Unknown error")) true, idleLabel])
  | .fault message =>
    (st, [savingLabel, .create payload.toJS,
      .toast (lit "Error saving: " ++ message) true, idleLabel])

/-- The click handler of `btn-save` (lines 542-607). -/
def btnSaveClick (p : Platform) (remote : CreateOutcome) (st : State) : State × List Effect :=
  match st.lastGeneratedContent with
  | none => (st, [.toast (lit "No content to save") true])
  | some content =>
    if !st.dataSdkReady then
      (st, [.toast (lit "Storage not ready. Please wait a moment.") true])
    else
      match capacityReached p st.currentRecords with
      | none => (st, [.uncaught])
      | some true => (st, [.toast (lit "History limit reached (999 items)") true])
      | some false =>
        if st.useLocalStorage then saveLocal p (buildPayload content p.isoNow) st
        else saveRemote remote (buildPayload content p.isoNow) st

/-! ## Sessions -/

/-- The handlers that touch the state of section 2 once start-up is over:
a generation (lines 438 and 524 assign `lastGeneratedContent`), a click on
the save button, a change notification from the data SDK. -/
inductive Event where
  | generated (content : Content)
  | save (p : Platform) (remote : CreateOutcome)
  | changed (p : Platform) (data : Option JSValue)

/-- The state after one handler has run. -/
def step (e : Event) (st : State) : State :=
  match e with
  | .generated content => { st with lastGeneratedContent := some content }
  | .save p remote => (btnSaveClick p remote st).1
  | .changed p data => (onDataChanged p data st).1

/-- The state after the handlers have run one after the other. -/
def run : List Event → State → State
  | [], st => st
  | e :: es, st => run es (step e st)

def Event.isChanged : Event → Bool
  | .changed _ _ => true
  | _ => false

/-- The random suffix of line 176: `substr(2, 9)` of the random text. -/
def randomSuffix (p : Platform) : JSString := (p.randomText.drop 2).take 9

/-- The clock reading and the random suffix a save draws. -/
def Event.draw : Event → Option (Int × JSString)
  | .save p _ => some (p.now, randomSuffix p)
  | _ => none

/-- The identity a save synthesizes in local mode. -/
def Event.identity : Event → Option JSString
  | .save p _ => some (localBackendId p)
  | _ => none

/-- Digits of base 36 as `toString(36)` prints them: `0`-`9`, `a`-`z`. -/
def isBase36 (c : Nat) : Bool :=
  (decide (48 ≤ c) && decide (c ≤ 57)) || (decide (97 ≤ c) && decide (c ≤ 122))

/-- The texts `Math.random().toString(36)` can give for a number of the
interval from 0 (included) to 1 (excluded): `0`, or `0.` and at least one
digit of base 36. -/
def isRandomText : JSString → Bool
  | [48] => true
  | 48 :: 46 :: d :: ds => (d :: ds).all isBase36
  | _ => false

/-- The slot holds the serialisation of this list of records, or nothing
when the list is empty. -/
def SlotHolds (storage : Option JSString) (rs : List Record) : Prop :=
  (storage = none ∧ rs = []) ∨ ∃ fmt, storage = some (JSON.stringify fmt (recordList rs))

/-- Local mode, with slot and memory each holding records whose identities
appear, in this order, in the list `ids`. -/
def LocalInv (ids : List JSString) (st : State) : Prop :=
  st.useLocalStorage = true ∧
    ∃ inSlot inMemory, SlotHolds st.storage inSlot ∧
      st.currentRecords = recordList inMemory ∧
      (inSlot.map Record.backendId).Sublist ids ∧
      (inMemory.map Record.backendId).Sublist ids

/-- The identity made of a clock reading and a random suffix. -/
def identityOf (d : Int × JSString) : JSString :=
  lit "local_" ++ (numberToString d.1 ++ 95 :: d.2)

/-! ## Records as JSON text objects -/

/-- Properties whose values are all strings. -/
def textProps (tps : List (JSString × JSString)) : List (JSString × JSValue) :=
  tps.map (fun q => (q.1, JSValue.string q.2))

/-- An object whose property values are all strings. -/
def textObject (tps : List (JSString × JSString)) : JSValue := .object (textProps tps)

/-- Keys that parsing puts back in the order they were written: no array
index among them and no key twice. -/
def PlainKeys (tps : List (JSString × JSString)) : Prop :=
  (∀ q ∈ tps, isArrayIndex q.1 = false) ∧ (tps.map Prod.fst).Nodup

/-- The name-value pairs of a record, in the order of its object. -/
def Record.pairs (r : Record) : List (JSString × JSString) :=
  [(lit "topic", r.fields.topic), (lit "tone", r.fields.tone),
   (lit "audience", r.fields.audience), (lit "keywords", r.fields.keywords),
   (lit "video_type", r.fields.video_type), (lit "title_1", r.fields.title_1),
   (lit "title_2", r.fields.title_2), (lit "title_3", r.fields.title_3),
   (lit "description", r.fields.description), (lit "hashtags", r.fields.hashtags),
   (lit "thumbnail_1", r.fields.thumbnail_1), (lit "thumbnail_2", r.fields.thumbnail_2),
   (lit "script", r.fields.script), (lit "created_at", r.fields.created_at),
   (lit "__backendId", r.backendId)]

/-! ## Sample inputs -/

/-- A content whose script has 2500 code units. -/
def longScript : Content :=
  { topic := lit "Vlogging Tips", tone := lit "Motivational", audience := lit "Everyone",
    keywords := [], videoType := lit "Long Video", titles := [lit "A", lit "B", lit "C"],
    description := lit "d", hashtags := lit "#youtube", thumbnails := [lit "t"],
    script := List.replicate 2500 97 }

/-- A platform on which nothing faults. -/
def calmPlatform : Platform :=
  { now := 1700000000000
    isoNow := lit "2023-11-14T22:13:20.000Z"
    randomText := lit "0.4fzyo82mvyr"
    storageDenied := false
    canStore := fun _ => true
    numberText := fun tok => tok
    numberIsZero := fun _ => false
    renderFault := fun _ => none
    pushFault := fun _ => lit "records.push is not a function"
    lengthCompare := fun _ => some false }

/-- The same platform with the storage quota used up: every `setItem`
raises `QuotaExceededError`. -/
def fullQuota : Platform := { calmPlatform with canStore := fun _ => false }

def sampleContent : Content :=
  { topic := lit "Vlogging Tips", tone := lit "Motivational", audience := lit "Everyone",
    keywords := lit "vlog", videoType := lit "Long Video",
    titles := [lit "A", lit "B", lit "C"], description := lit "d",
    hashtags := lit "#youtube", thumbnails := [lit "t", lit "u"], script := lit "s" }

/-- A record as the local branch stores it. -/
def sampleRecord : Record :=
  ⟨buildPayload sampleContent calmPlatform.isoNow, localBackendId calmPlatform⟩

/-- Local mode, ready, nothing saved yet. -/
def emptyLocal : State :=
  { currentRecords := .array []
    lastGeneratedContent := some sampleContent
    dataSdkReady := true
    useLocalStorage := true
    storage := none }

/-- Before start-up: nothing is ready. -/
def notReady : State := { emptyLocal with dataSdkReady := false, useLocalStorage := false }

/-- Ready, with 999 records in memory. -/
def atCapacity : State :=
  { emptyLocal with currentRecords := recordList (List.replicate 999 sampleRecord) }

/-- Local mode, ready, one record in memory while the local slot holds
nothing (the slot was cleared from outside the page). -/
def staleLocal : State := { emptyLocal with currentRecords := recordList [sampleRecord] }

/-- Remote mode, ready. -/
def readyRemote : State := { emptyLocal with useLocalStorage := false }

/-- The platform one millisecond later. -/
def laterPlatform : Platform := { calmPlatform with now := 1700000000001 }

/-- Two saves of the same millisecond with the same random draw. -/
def sameDraw : List Event := [.save calmPlatform .ok, .save calmPlatform .ok]

/-- Two saves one millisecond apart, with a regeneration in between. -/
def twoSaves : List Event :=
  [.save calmPlatform .ok, .generated longScript, .save laterPlatform .ok]

/-- A clock set five milliseconds before the epoch, and the draw 0.5. -/
def beforeEpoch : Platform := { calmPlatform with now := -5, randomText := lit "0.i" }

/-- The random source drawing exactly 0. -/
def zeroDraw : Platform := { calmPlatform with randomText := lit "0" }

/-- A slot holding the JSON text `null`. -/
def nullSlot : Option JSString := some (lit "null")

/-! ## Proofs -/

theorem hexVal_hexDigit (n : Nat) (h : n < 16) : hexVal (hexDigit n) = some n := by
  interval_cases n <;> rfl

theorem hex4_unicodeEscape (c : Nat) (h : c < 65536) :
    hex4 (hexDigit (c / 4096 % 16)) (hexDigit (c / 256 % 16)) (hexDigit (c / 16 % 16))
      (hexDigit (c % 16)) = some c := by
  have h1 := hexVal_hexDigit (c / 4096 % 16) (Nat.mod_lt _ (by decide))
  have h2 := hexVal_hexDigit (c / 256 % 16) (Nat.mod_lt _ (by decide))
  have h3 := hexVal_hexDigit (c / 16 % 16) (Nat.mod_lt _ (by decide))
  have h4 := hexVal_hexDigit (c % 16) (Nat.mod_lt _ (by decide))
  simp only [hex4, h1, h2, h3, h4, Option.some.injEq]
  omega

theorem parseChars_quote (rest : JSString) : parseChars (34 :: rest) = some ([], rest) := by
  rw [parseChars.eq_def]
  simp

theorem parseChars_literal (c : Nat) (t : JSString) (h1 : c ≠ 34) (h2 : c ≠ 92)
    (h3 : ¬ c < 32) :
    parseChars (c :: t) = (parseChars t).map (fun q => (c :: q.1, q.2)) := by
  rw [parseChars.eq_def]
  simp [h1, h2, h3]

theorem parseChars_escape (e u : Nat) (t : JSString) (h : e ≠ 117)
    (hu : unescape e = some u) :
    parseChars (92 :: e :: t) = (parseChars t).map (fun q => (u :: q.1, q.2)) := by
  rw [parseChars.eq_def]
  simp [h, hu]

theorem parseChars_unicode (a b c d u : Nat) (t : JSString) (hu : hex4 a b c d = some u) :
    parseChars (92 :: 117 :: a :: b :: c :: d :: t) =
      (parseChars t).map (fun q => (u :: q.1, q.2)) := by
  rw [parseChars.eq_def]
  simp [hu]

theorem parseChars_quoteUnit (c : Nat) (t : JSString) :
    parseChars (quoteUnit c ++ t) = (parseChars t).map (fun q => (c :: q.1, q.2)) := by
  unfold quoteUnit
  split_ifs with a1 a2 a3 a4 a5 a6 a7 a8
  · subst a1; exact parseChars_escape 98 8 t (by decide) rfl
  · subst a2; exact parseChars_escape 116 9 t (by decide) rfl
  · subst a3; exact parseChars_escape 110 10 t (by decide) rfl
  · subst a4; exact parseChars_escape 102 12 t (by decide) rfl
  · subst a5; exact parseChars_escape 114 13 t (by decide) rfl
  · subst a6; exact parseChars_escape 34 34 t (by decide) rfl
  · subst a7; exact parseChars_escape 92 92 t (by decide) rfl
  · have hc : c < 65536 := by omega
    exact parseChars_unicode _ _ _ _ c t (hex4_unicodeEscape c hc)
  · exact parseChars_literal c t a6 a7 (by omega)

theorem parseChars_quoteBody (s : JSString) :
    ∀ rest : JSString, parseChars (quoteBody s ++ 34 :: rest) = some (s, rest) := by
  induction s using quoteBody.induct with
  | case1 => intro rest; exact parseChars_quote rest
  | case2 c =>
    intro rest
    simp [quoteBody, parseChars_quoteUnit, parseChars_quote]
  | case3 c d r hp ih =>
    intro rest
    simp only [isHighSurrogate, isLowSurrogate, Bool.and_eq_true, decide_eq_true_eq] at hp
    have e : quoteBody (c :: d :: r) = c :: d :: quoteBody r := by
      rw [quoteBody]; simp [isHighSurrogate, isLowSurrogate, hp]
    rw [e, List.cons_append, List.cons_append,
      parseChars_literal c _ (by omega) (by omega) (by omega),
      parseChars_literal d _ (by omega) (by omega) (by omega), ih rest]
    rfl
  | case4 c d r hp ih =>
    intro rest
    have e : quoteBody (c :: d :: r) = quoteUnit c ++ quoteBody (d :: r) := by
      rw [quoteBody]; simp [hp]
    rw [e, List.append_assoc, parseChars_quoteUnit, ih rest]
    rfl


theorem skipWs_cons (c : Nat) (cs : JSString) (h : isWs c = false) :
    skipWs (c :: cs) = c :: cs := by
  simp [skipWs, h]

theorem quoteJSONString_append (s t : JSString) :
    quoteJSONString s ++ t = 34 :: (quoteBody s ++ 34 :: t) := by
  simp [quoteJSONString]

theorem length_quoteJSONString (s : JSString) : 2 ≤ (quoteJSONString s).length := by
  simp [quoteJSONString]

theorem parseValue_string (f : Nat) (s t : JSString) :
    parseValue (f + 1) (quoteJSONString s ++ t) = some (JSValue.string s, t) := by
  rw [quoteJSONString_append, parseValue.eq_def]
  simp [parseChars_quoteBody]

theorem setProp_append (acc : List (JSString × JSValue)) (k : JSString) (v : JSValue)
    (hk : ∀ q ∈ acc, q.1 ≠ k) (hi : isArrayIndex k = false) :
    setProp acc k v = acc ++ [(k, v)] := by
  have h : acc.any (fun p => p.1 == k) = false := by
    rw [List.any_eq_false]
    intro q hq
    simpa using hk q hq
  simp [setProp, h, hi]

theorem parseMembers_member (f : Nat) (k s tail : JSString) (d : Nat)
    (acc : List (JSString × JSValue)) (hd : isWs d = false) :
    parseMembers (f + 2) (quoteJSONString k ++ 58 :: (quoteJSONString s ++ d :: tail)) acc =
      if d = 44 then parseMembers (f + 1) (skipWs tail) (setProp acc k (JSValue.string s))
      else if d = 125 then some (setProp acc k (JSValue.string s), tail)
      else none := by
  rw [quoteJSONString_append, parseMembers.eq_def]
  simp only [parseChars_quoteBody, skipWs_cons 58 _ (by decide)]
  rw [show skipWs (quoteJSONString s ++ d :: tail) = quoteJSONString s ++ d :: tail from by
    rw [quoteJSONString_append]; exact skipWs_cons 34 _ (by decide)]
  rw [parseValue_string]
  simp [skipWs_cons d _ hd]

theorem stringifyMembers_cons (fmt : JSString → JSString) (k s : JSString)
    (r : List (JSString × JSString)) :
    stringifyMembers fmt (textProps ((k, s) :: r)) =
      quoteJSONString k ++ 58 :: (quoteJSONString s ++
        (if r.isEmpty then [] else 44 :: stringifyMembers fmt (textProps r))) := by
  cases r <;> simp [textProps, stringifyMembers, JSON.stringify]

theorem parseMembers_textProps (fmt : JSString → JSString) :
    ∀ (tps : List (JSString × JSString)) (fuel : Nat) (acc : List (JSString × JSValue))
      (rest : JSString), tps ≠ [] →
      (stringifyMembers fmt (textProps tps)).length < fuel →
      (∀ q ∈ tps, isArrayIndex q.1 = false) →
      (acc.map Prod.fst ++ tps.map Prod.fst).Nodup →
      parseMembers fuel (stringifyMembers fmt (textProps tps) ++ 125 :: rest) acc =
        some (acc ++ textProps tps, rest) := by
  intro tps
  induction tps with
  | nil => intro _ _ _ h; exact absurd rfl h
  | cons q r ih =>
    obtain ⟨k, s⟩ := q
    intro fuel acc rest _ hlen hidx hnd
    have hk : ∀ q ∈ acc, q.1 ≠ k := by
      intro q hq e
      rw [List.nodup_append] at hnd
      exact hnd.2.2 (List.mem_map_of_mem Prod.fst hq) (by simp [e])
    have hset : setProp acc k (JSValue.string s) = acc ++ [(k, JSValue.string s)] :=
      setProp_append acc k _ hk (hidx (k, s) (by simp))
    rw [stringifyMembers_cons] at hlen ⊢
    have l1 := length_quoteJSONString k
    have l2 := length_quoteJSONString s
    simp only [List.length_append, List.length_cons] at hlen
    obtain ⟨f, rfl⟩ : ∃ f, fuel = f + 2 := ⟨fuel - 2, by omega⟩
    cases r with
    | nil =>
      simp only [List.isEmpty_nil, if_true, List.append_nil, List.append_assoc,
        List.cons_append]
      rw [parseMembers_member f k s rest 125 acc (by decide), hset]
      simp [textProps]
    | cons q2 r2 =>
      obtain ⟨k2, s2⟩ := q2
      simp only [List.isEmpty_cons, Bool.false_eq_true, if_false, List.append_assoc,
        List.cons_append]
      simp only [List.isEmpty_cons, Bool.false_eq_true, if_false, List.length_cons] at hlen
      rw [parseMembers_member f k s _ 44 acc (by decide), hset]
      simp only [if_true]
      have hws : skipWs (stringifyMembers fmt (textProps ((k2, s2) :: r2)) ++ 125 :: rest) =
          stringifyMembers fmt (textProps ((k2, s2) :: r2)) ++ 125 :: rest := by
        rw [stringifyMembers_cons, List.append_assoc, quoteJSONString_append]
        exact skipWs_cons 34 _ (by decide)
      rw [hws, ih (f + 1) _ rest (by simp) (by omega)
        (fun q hq => hidx q (List.mem_cons_of_mem _ hq)) (by simpa using hnd)]
      simp [textProps]


theorem stringifyMembers_head (fmt : JSString → JSString) (q : JSString × JSString)
    (r : List (JSString × JSString)) (rest : JSString) :
    ∃ t, stringifyMembers fmt (textProps (q :: r)) ++ rest = 34 :: t := by
  obtain ⟨k, s⟩ := q
  rw [stringifyMembers_cons, List.append_assoc, quoteJSONString_append]
  exact ⟨_, rfl⟩

theorem stringify_textObject (fmt : JSString → JSString) (tps : List (JSString × JSString)) :
    JSON.stringify fmt (textObject tps) =
      123 :: (stringifyMembers fmt (textProps tps) ++ [125]) := by
  simp [textObject, JSON.stringify]

theorem parseValue_textObject (fmt : JSString → JSString) (tps : List (JSString × JSString))
    (fuel : Nat) (rest : JSString) (hk : PlainKeys tps)
    (hlen : (JSON.stringify fmt (textObject tps)).length ≤ fuel) :
    parseValue fuel (JSON.stringify fmt (textObject tps) ++ rest) =
      some (textObject tps, rest) := by
  rw [stringify_textObject] at hlen ⊢
  simp only [List.length_cons, List.length_append, List.length_nil] at hlen
  obtain ⟨f, rfl⟩ : ∃ f, fuel = f + 1 := ⟨fuel - 1, by omega⟩
  cases tps with
  | nil =>
    rw [parseValue.eq_def]
    simp [textProps, stringifyMembers, skipWs_cons 125 _ (by decide), textObject]
  | cons q r =>
    obtain ⟨t, ht⟩ := stringifyMembers_head fmt q r (125 :: rest)
    have hp := parseMembers_textProps fmt (q :: r) f [] rest (by simp) (by omega) hk.1
      (by simpa using hk.2)
    rw [ht] at hp
    rw [parseValue.eq_def]
    simp only [List.cons_append, List.append_assoc, List.nil_append, ht,
      skipWs_cons 34 _ (by decide)]
    simp [hp, textObject]

theorem stringifyElems_cons (fmt : JSString → JSString) (x : JSValue) (r : List JSValue) :
    stringifyElems fmt (x :: r) =
      JSON.stringify fmt x ++ (if r.isEmpty then [] else 44 :: stringifyElems fmt r) := by
  simp [stringifyElems]

theorem stringifyElems_head (fmt : JSString → JSString) (o : List (JSString × JSString))
    (r : List (List (JSString × JSString))) (rest : JSString) :
    ∃ t, stringifyElems fmt ((o :: r).map textObject) ++ rest = 123 :: t := by
  rw [List.map_cons, stringifyElems_cons, stringify_textObject]
  exact ⟨_, rfl⟩

theorem parseElems_textObjects (fmt : JSString → JSString) :
    ∀ (objs : List (List (JSString × JSString))) (fuel : Nat) (rest : JSString),
      objs ≠ [] → (∀ o ∈ objs, PlainKeys o) →
      (stringifyElems fmt (objs.map textObject)).length < fuel →
      parseElems fuel (stringifyElems fmt (objs.map textObject) ++ 93 :: rest) =
        some (objs.map textObject, rest) := by
  intro objs
  induction objs with
  | nil => intro _ _ h; exact absurd rfl h
  | cons o r ih =>
    intro fuel rest _ hk hlen
    rw [List.map_cons, stringifyElems_cons] at hlen ⊢
    simp only [List.length_append] at hlen
    obtain ⟨f, rfl⟩ : ∃ f, fuel = f + 1 := ⟨fuel - 1, by omega⟩
    have l1 : 2 ≤ (JSON.stringify fmt (textObject o)).length := by
      rw [stringify_textObject]; simp
    rw [parseElems.eq_def]
    simp only [List.append_assoc]
    rw [parseValue_textObject fmt o f _ (hk o (by simp)) (by omega)]
    cases r with
    | nil => simp [skipWs_cons 93 _ (by decide)]
    | cons o2 r2 =>
      simp only [List.map_cons, List.isEmpty_cons, Bool.false_eq_true, if_false,
        List.length_cons] at hlen
      obtain ⟨t, ht⟩ := stringifyElems_head fmt o2 r2 (93 :: rest)
      have hp := ih f rest (by simp) (fun o ho => hk o (List.mem_cons_of_mem _ ho))
        (by simp only [List.map_cons]; omega)
      have hws : skipWs (stringifyElems fmt (List.map textObject (o2 :: r2)) ++ 93 :: rest) =
          stringifyElems fmt (List.map textObject (o2 :: r2)) ++ 93 :: rest := by
        rw [ht]; exact skipWs_cons 123 _ (by decide)
      simp only [List.isEmpty_cons, List.map_cons, Bool.false_eq_true, if_false,
        List.cons_append, skipWs_cons 44 _ (by decide)]
      simp only [List.map_cons] at hws hp
      simp [hws, hp]

theorem parse_stringify_textObjects (fmt : JSString → JSString)
    (objs : List (List (JSString × JSString))) (hk : ∀ o ∈ objs, PlainKeys o) :
    JSON.parse (JSON.stringify fmt (.array (objs.map textObject))) =
      some (.array (objs.map textObject)) := by
  have e : JSON.stringify fmt (.array (objs.map textObject)) =
      91 :: (stringifyElems fmt (objs.map textObject) ++ [93]) := by
    simp [JSON.stringify]
  rw [e, JSON.parse, skipWs_cons 91 _ (by decide)]
  cases objs with
  | nil =>
    rw [parseValue.eq_def]
    simp [stringifyElems, skipWs, isWs]
  | cons o r =>
    obtain ⟨t, ht⟩ := stringifyElems_head fmt o r [93]
    have hp := parseElems_textObjects fmt (o :: r)
      (2 * (91 :: (stringifyElems fmt ((o :: r).map textObject) ++ [93])).length + 1) []
      (by simp) hk (by simp only [List.length_cons, List.length_append]; omega)
    rw [ht] at hp
    simp only [List.length_cons] at hp
    rw [parseValue.eq_def]
    simp only [ht, skipWs_cons 123 _ (by decide), List.length_cons]
    simp [hp, skipWs]

theorem record_toJS (r : Record) : r.toJS = textObject r.pairs := rfl

theorem record_plainKeys (r : Record) : PlainKeys r.pairs := by
  constructor
  · intro q hq
    simp only [Record.pairs, List.mem_cons, List.mem_singleton, List.not_mem_nil,
      or_false] at hq
    rcases hq with h | h | h | h | h | h | h | h | h | h | h | h | h | h | h <;>
      (subst h; rfl)
  · simp only [Record.pairs, List.map_cons, List.map_nil]
    decide

theorem recordList_eq (rs : List Record) :
    recordList rs = .array ((rs.map Record.pairs).map textObject) := by
  simp [recordList, List.map_map, Function.comp_def, record_toJS]

/-- Parsing the serialisation of a list of records gives the list back. -/
theorem parse_stringify_recordList (fmt : JSString → JSString) (rs : List Record) :
    JSON.parse (JSON.stringify fmt (recordList rs)) = some (recordList rs) := by
  rw [recordList_eq]
  apply parse_stringify_textObjects
  intro o ho
  obtain ⟨r, _, rfl⟩ := List.mem_map.1 ho
  exact record_plainKeys r


/-! ## The save handler: truncation and guards -/

theorem length_truncate (s : JSString) (n : Nat) : (truncate s n).length ≤ n := by
  unfold truncate
  split_ifs with h1 h2
  · simp
  · simp
  · omega

theorem truncate_eq (s : JSString) (n : Nat) :
    truncate s n = if s.length > n then s.take n else s := by
  unfold truncate
  cases s with
  | nil => simp
  | cons c cs => simp

theorem newRecord_eq (p : Platform) (x : Payload) :
    newRecord p x = Record.toJS ⟨x, localBackendId p⟩ := rfl

/-- C1. Whatever the generated content and the clock, the payload the save
handler builds (and then hands to local storage or to the data SDK) has a
topic of at most 200 code units, keywords at most 200, each title at most
300, a description at most 1000, hashtags at most 500, each thumbnail text at
most 300 and a script at most 2000. -/
theorem payload_fields_capped (c : Content) (isoNow : JSString) :
    (buildPayload c isoNow).topic.length ≤ 200 ∧
    (buildPayload c isoNow).keywords.length ≤ 200 ∧
    (buildPayload c isoNow).title_1.length ≤ 300 ∧
    (buildPayload c isoNow).title_2.length ≤ 300 ∧
    (buildPayload c isoNow).title_3.length ≤ 300 ∧
    (buildPayload c isoNow).description.length ≤ 1000 ∧
    (buildPayload c isoNow).hashtags.length ≤ 500 ∧
    (buildPayload c isoNow).thumbnail_1.length ≤ 300 ∧
    (buildPayload c isoNow).thumbnail_2.length ≤ 300 ∧
    (buildPayload c isoNow).script.length ≤ 2000 := by
  refine ⟨?_, ?_, ?_, ?_, ?_, ?_, ?_, ?_, ?_, ?_⟩ <;> exact length_truncate _ _

/-- C2. `truncate(s, n)` is the first `n` code units of `s` when `s` is
longer than `n` and `s` itself otherwise; a script of 2500 code units goes
into the payload as exactly its first 2000. -/
theorem truncate_exact (s : JSString) (n : Nat) (c : Content) (isoNow : JSString)
    (h : c.script.length = 2500) :
    truncate s n = (if s.length > n then s.take n else s) ∧
    (buildPayload c isoNow).script = c.script.take 2000 ∧
    (buildPayload c isoNow).script.length = 2000 := by
  have hne : c.script.isEmpty = false := by
    cases hs : c.script with
    | nil => rw [hs] at h; simp at h
    | cons a b => rfl
  have e : (buildPayload c isoNow).script = c.script.take 2000 := by
    simp [buildPayload, jsOr, hne, truncate_eq, h]
  refine ⟨truncate_eq s n, e, ?_⟩
  rw [e, List.length_take, h]
  rfl

/-- C2 on a script of 2500 letters `a`. -/
theorem truncate_exact_witness :
    longScript.script.length = 2500 ∧
    truncate (lit "abcdef") 4 = lit "abcd" ∧
    (buildPayload longScript []).script = List.replicate 2000 97 := by
  have h : longScript.script.length = 2500 := List.length_replicate 2500 97
  have t := truncate_exact (lit "abcdef") 4 longScript [] h
  refine ⟨h, ?_, ?_⟩
  · rw [t.1]; decide
  · rw [t.2.1]; exact List.take_replicate 97 2000 2500

/-- C3. In a ready state whose in-memory list holds 999 records or more, a
save of any content is rejected with the toast "History limit reached (999
items)" and nothing else happens: the state (in-memory list, local slot,
mode, readiness) is the one before, and there is no call of `create`. -/
theorem save_rejected_at_capacity (p : Platform) (remote : CreateOutcome) (st : State)
    (content : Content) (xs : List JSValue)
    (hc : st.lastGeneratedContent = some content) (hr : st.dataSdkReady = true)
    (hl : st.currentRecords = .array xs) (hn : 999 ≤ xs.length) :
    btnSaveClick p remote st =
      (st, [Effect.toast (lit "History limit reached (999 items)") true]) := by
  simp [btnSaveClick, hc, hr, hl, capacityReached, hn]

/-- C4. In a state that is not ready, a save of any content is rejected with
the toast "Storage not ready. Please wait a moment." and nothing else
happens: no write to the local slot, no call of `create`, nothing kept for
later, the state is the one before. -/
theorem save_rejected_when_not_ready (p : Platform) (remote : CreateOutcome) (st : State)
    (content : Content) (hc : st.lastGeneratedContent = some content)
    (hr : st.dataSdkReady = false) :
    btnSaveClick p remote st =
      (st, [Effect.toast (lit "Storage not ready. Please wait a moment.") true]) := by
  simp [btnSaveClick, hc, hr]

/-- C3 on a ready state holding 999 records. -/
theorem save_rejected_at_capacity_witness :
    atCapacity.dataSdkReady = true ∧
    btnSaveClick calmPlatform .ok atCapacity =
      (atCapacity, [Effect.toast (lit "History limit reached (999 items)") true]) :=
  ⟨rfl, save_rejected_at_capacity calmPlatform .ok atCapacity sampleContent
    ((List.replicate 999 sampleRecord).map Record.toJS) rfl rfl rfl
    (by rw [List.length_map, List.length_replicate])⟩

/-- C4 on the state before start-up. -/
theorem save_rejected_when_not_ready_witness :
    notReady.dataSdkReady = false ∧
    btnSaveClick calmPlatform .ok notReady =
      (notReady, [Effect.toast (lit "Storage not ready. Please wait a moment.") true]) :=
  ⟨rfl, save_rejected_when_not_ready calmPlatform .ok notReady sampleContent rfl rfl⟩

/-! ## The local branch -/

theorem stringify_array_ne_nil (fmt : JSString → JSString) (xs : List JSValue) :
    (JSON.stringify fmt (.array xs)).isEmpty = false := by
  simp [JSON.stringify]

theorem saveToLocalStorage_fst_of_ok (p : Platform) (storage : Option JSString)
    (v : JSValue) (h : (saveToLocalStorage p storage v).2 = true) :
    (saveToLocalStorage p storage v).1 = some (JSON.stringify p.numberText v) ∧
      p.storageDenied = false := by
  unfold saveToLocalStorage at h ⊢
  by_cases hc : (!p.storageDenied && p.canStore (JSON.stringify p.numberText v)) = true
  · rw [if_pos hc]
    simp only [Bool.and_eq_true, Bool.not_eq_true'] at hc
    exact ⟨rfl, hc.1⟩
  · rw [if_neg hc] at h
    simp at h

theorem saveToLocalStorage_fst_of_fail (p : Platform) (storage : Option JSString)
    (v : JSValue) (h : (saveToLocalStorage p storage v).2 = false) :
    (saveToLocalStorage p storage v).1 = storage := by
  unfold saveToLocalStorage at h ⊢
  by_cases hc : (!p.storageDenied && p.canStore (JSON.stringify p.numberText v)) = true
  · rw [if_pos hc] at h
    simp at h
  · rw [if_neg hc]

/-- A slot holding the serialisation of a list of records loads as that
list, on any platform that lets the slot be read. -/
theorem load_serialised (q : Platform) (fmt : JSString → JSString) (rs : List Record)
    (hq : q.storageDenied = false) :
    loadFromLocalStorage q (some (JSON.stringify fmt (recordList rs))) = recordList rs := by
  have hne := stringify_array_ne_nil fmt (rs.map Record.toJS)
  simp only [loadFromLocalStorage, hq, Bool.false_eq_true, if_false]
  rw [parse_stringify_recordList]
  rw [show recordList rs = JSValue.array (rs.map Record.toJS) from rfl] at *
  simp [hne]

/-- What a successful write of a list of records leaves in the slot reads
back as that list. -/
theorem load_after_write (p q : Platform) (storage : Option JSString) (rs : List Record)
    (hw : (saveToLocalStorage p storage (recordList rs)).2 = true)
    (hq : q.storageDenied = false) :
    loadFromLocalStorage q (saveToLocalStorage p storage (recordList rs)).1 =
      recordList rs := by
  rw [(saveToLocalStorage_fst_of_ok p storage _ hw).1]
  exact load_serialised q p.numberText rs hq

theorem recordList_append (rs : List Record) (r : Record) :
    JSValue.array (rs.map Record.toJS ++ [r.toJS]) = recordList (rs ++ [r]) := by
  simp [recordList]

theorem saveLocal_fst (p : Platform) (payload : Payload) (st : State)
    (records : List JSValue) (h : loadFromLocalStorage p st.storage = .array records) :
    (saveLocal p payload st).1 =
      { st with
        storage :=
          (saveToLocalStorage p st.storage (.array (records ++ [newRecord p payload]))).1
        currentRecords := loadFromLocalStorage p
          (saveToLocalStorage p st.storage (.array (records ++ [newRecord p payload]))).1 } := by
  simp only [saveLocal, addToLocalStorage, h]
  split <;> rfl

theorem saveLocal_fst_of_not_array (p : Platform) (payload : Payload) (st : State)
    (h : ∀ records, loadFromLocalStorage p st.storage ≠ .array records) :
    (saveLocal p payload st).1 = st := by
  unfold saveLocal addToLocalStorage
  split
  · rfl
  · rename_i storage x heq
    split at heq
    · rename_i records hl
      exact absurd hl (h records)
    · cases heq

theorem btnSaveClick_fst_local (p : Platform) (remote : CreateOutcome) (st : State)
    (content : Content) (hc : st.lastGeneratedContent = some content)
    (hr : st.dataSdkReady = true) (hm : st.useLocalStorage = true) :
    (btnSaveClick p remote st).1 = st ∨
      (btnSaveClick p remote st).1 = (saveLocal p (buildPayload content p.isoNow) st).1 := by
  simp only [btnSaveClick, hc, hr, hm, Bool.not_true, Bool.false_eq_true, if_false, if_true]
  split <;> simp

/-- C5. Local mode, ready, the in-memory list equal to the persisted list
`rs` of fewer than 999 records: a save whose write succeeds leaves the
in-memory list and the persisted list both equal to `rs` with one record
appended at the end, the earlier records as they were; the new record holds
the truncated fields of the candidate (`buildPayload`) and the synthesized
identity (`localBackendId`). -/
theorem save_local_appends (p : Platform) (remote : CreateOutcome) (st : State)
    (content : Content) (rs : List Record)
    (hc : st.lastGeneratedContent = some content) (hr : st.dataSdkReady = true)
    (hm : st.useLocalStorage = true) (hmem : st.currentRecords = recordList rs)
    (hdisk : loadFromLocalStorage p st.storage = recordList rs) (hlt : rs.length < 999)
    (hw : (saveToLocalStorage p st.storage
      (recordList (rs ++ [⟨buildPayload content p.isoNow, localBackendId p⟩]))).2 = true) :
    (btnSaveClick p remote st).1.currentRecords =
      recordList (rs ++ [⟨buildPayload content p.isoNow, localBackendId p⟩]) ∧
    loadFromLocalStorage p (btnSaveClick p remote st).1.storage =
      recordList (rs ++ [⟨buildPayload content p.isoNow, localBackendId p⟩]) ∧
    (btnSaveClick p remote st).1.useLocalStorage = true ∧
    (btnSaveClick p remote st).1.dataSdkReady = true := by
  have hcap : capacityReached p st.currentRecords = some false := by
    rw [hmem]
    simp only [recordList, capacityReached, List.length_map]
    simp [hlt]
  have e : (btnSaveClick p remote st).1 = (saveLocal p (buildPayload content p.isoNow) st).1 := by
    simp [btnSaveClick, hc, hr, hm, hcap]
  have hd := (saveToLocalStorage_fst_of_ok p st.storage _ hw).2
  have hl := load_after_write p p st.storage _ hw hd
  rw [e, saveLocal_fst p _ st (rs.map Record.toJS) hdisk, newRecord_eq, recordList_append]
  exact ⟨hl, hl, hm, hr⟩

/-- C5 on the first save of a session in local mode. -/
theorem save_local_appends_witness :
    emptyLocal.currentRecords = recordList [] ∧
    (btnSaveClick calmPlatform .ok emptyLocal).1.currentRecords = recordList [sampleRecord] ∧
    loadFromLocalStorage calmPlatform (btnSaveClick calmPlatform .ok emptyLocal).1.storage =
      recordList [sampleRecord] :=
  have h := save_local_appends calmPlatform .ok emptyLocal sampleContent [] rfl rfl rfl rfl rfl
    (by decide) rfl
  ⟨rfl, h.1, h.2.1⟩

/-- C6 (what the code does on a failed write). Local mode, ready, empty
history, and a storage quota that refuses every write: the flag returned by
`saveToLocalStorage` is `false`, the slot is left empty, and the handler
still shows "Saved to local history successfully!" as a non-error toast. -/
theorem failed_write_reported_as_saved :
    (saveToLocalStorage fullQuota emptyLocal.storage
      (.array ([] ++ [newRecord fullQuota (buildPayload sampleContent fullQuota.isoNow)]))).2
        = false ∧
    (btnSaveClick fullQuota .ok emptyLocal).1.storage = none ∧
    (btnSaveClick fullQuota .ok emptyLocal).2 =
      [savingLabel, .render (.array []),
        .toast (lit "Saved to local history successfully!") false, idleLabel] :=
  ⟨rfl, rfl, rfl⟩

/-- In remote mode the success toast is shown only when `create` returned a
result with `isOk`. -/
theorem remote_success_only_when_ok (remote : CreateOutcome) (payload : Payload) (st : State)
    (msg : JSString) (h : Effect.toast msg false ∈ (saveRemote remote payload st).2) :
    remote = CreateOutcome.ok := by
  cases remote with
  | ok => rfl
  | notOk m => simp [saveRemote, savingLabel, idleLabel] at h
  | fault m => simp [saveRemote, savingLabel, idleLabel] at h

/-- C7 (counterexample). Local mode, ready, one record in memory, an empty
slot, a quota that refuses the write: the save fails and the in-memory list
is no longer what it was (it is reloaded from the slot, hence empty). -/
theorem failed_local_save_changes_list :
    staleLocal.dataSdkReady = true ∧ staleLocal.useLocalStorage = true ∧
    (saveToLocalStorage fullQuota staleLocal.storage
      (.array ([] ++ [newRecord fullQuota (buildPayload sampleContent fullQuota.isoNow)]))).2
        = false ∧
    (btnSaveClick fullQuota .ok staleLocal).1.currentRecords = .array [] ∧
    (btnSaveClick fullQuota .ok staleLocal).1.currentRecords ≠ staleLocal.currentRecords := by
  refine ⟨rfl, rfl, rfl, rfl, ?_⟩
  intro h
  have h2 : (JSValue.array [] : JSValue) = recordList [sampleRecord] := h
  simp [recordList] at h2

/-- C7 (amended). From a ready state with a candidate content: in remote
mode a save leaves the whole state as it was, in particular when `create`
returns not-ok or raises; in local mode a save whose write raises leaves the
mode, the readiness flag and the slot as they were, and the in-memory list
is either untouched or reloaded from the slot, so that the state is the one
before whenever the in-memory list was the persisted one. -/
theorem failed_save_keeps_state (p : Platform) (remote : CreateOutcome) (st : State)
    (content : Content) (hc : st.lastGeneratedContent = some content)
    (hr : st.dataSdkReady = true) :
    (st.useLocalStorage = false → (btnSaveClick p remote st).1 = st) ∧
    (st.useLocalStorage = true →
      (∀ records, loadFromLocalStorage p st.storage = .array records →
        (saveToLocalStorage p st.storage
          (.array (records ++ [newRecord p (buildPayload content p.isoNow)]))).2 = false) →
      (btnSaveClick p remote st).1.useLocalStorage = true ∧
      (btnSaveClick p remote st).1.dataSdkReady = true ∧
      (btnSaveClick p remote st).1.storage = st.storage ∧
      ((btnSaveClick p remote st).1.currentRecords = st.currentRecords ∨
        (btnSaveClick p remote st).1.currentRecords = loadFromLocalStorage p st.storage) ∧
      (st.currentRecords = loadFromLocalStorage p st.storage →
        (btnSaveClick p remote st).1 = st)) := by
  constructor
  · intro hm
    simp only [btnSaveClick, hc, hr, hm, Bool.not_true, Bool.false_eq_true, if_false]
    split
    · rfl
    · rfl
    · cases remote <;> rfl
  · intro hm hw
    rcases btnSaveClick_fst_local p remote st content hc hr hm with e | e
    · rw [e]
      exact ⟨hm, hr, rfl, Or.inl rfl, fun _ => rfl⟩
    · rw [e]
      by_cases ha : ∃ records, loadFromLocalStorage p st.storage = .array records
      · obtain ⟨records, hl⟩ := ha
        rw [saveLocal_fst p _ st records hl,
          saveToLocalStorage_fst_of_fail p st.storage _ (hw records hl)]
        refine ⟨hm, hr, rfl, Or.inr rfl, ?_⟩
        intro hs
        rw [← hs]
      · rw [saveLocal_fst_of_not_array p _ st (fun records h => ha ⟨records, h⟩)]
        exact ⟨hm, hr, rfl, Or.inl rfl, fun _ => rfl⟩

/-- C7 (amended) on a refused local write and on a remote fault. -/
theorem failed_save_keeps_state_witness :
    emptyLocal.dataSdkReady = true ∧
    (btnSaveClick fullQuota .ok emptyLocal).1 = emptyLocal ∧
    (btnSaveClick calmPlatform (.fault (lit "offline")) readyRemote).1 = readyRemote :=
  ⟨rfl,
    (failed_save_keeps_state fullQuota .ok emptyLocal sampleContent rfl rfl).2 rfl
      (fun records h => by
        have e : records = [] := by
          have h2 : (JSValue.array [] : JSValue) = .array records := h
          simpa using h2.symm
        subst e
        rfl) |>.2.2.2.2 rfl,
    (failed_save_keeps_state calmPlatform (.fault (lit "offline")) readyRemote sampleContent
      rfl rfl).1 rfl⟩

/-! ## Start-up and the local slot -/

theorem deliver_storage (p : Platform) (ds : List (Option JSValue)) :
    ∀ st : State, (deliver p ds st).1.storage = st.storage := by
  induction ds with
  | nil => intro st; rfl
  | cons d ds ih =>
    intro st
    rw [deliver, ih]
    rfl

theorem fallBack_fallBack (p : Platform) (st : State) :
    fallBack p (fallBack p st) = fallBack p st := rfl

theorem initDataSdk_notOk_fst (p : Platform) (during : List (Option JSValue)) (st : State) :
    (initDataSdk p (.present during .notOk) st).1 = fallBack p (deliver p during st).1 := by
  simp only [initDataSdk]
  split <;> rfl

/-- C8. When the data SDK is absent, or its `init` returns not-ok, or its
`init` raises, `initDataSdk` ends in local mode, ready, with the in-memory
list equal to what the local slot holds (`loadFromLocalStorage`): the empty
list when the slot holds nothing, the list `rs` when the slot holds the
serialisation of `rs`. The slot itself is not touched and the list is handed
to `renderHistoryList`. -/
theorem init_falls_back_to_local (p : Platform) (sdk : Sdk) (st : State)
    (h : sdk = .absent ∨
      ∃ during, sdk = .present during .notOk ∨ sdk = .present during .fault) :
    (initDataSdk p sdk st).1.useLocalStorage = true ∧
    (initDataSdk p sdk st).1.dataSdkReady = true ∧
    (initDataSdk p sdk st).1.currentRecords = loadFromLocalStorage p st.storage ∧
    (initDataSdk p sdk st).1.storage = st.storage ∧
    (st.storage = none → (initDataSdk p sdk st).1.currentRecords = .array []) ∧
    (∀ rs fmt, st.storage = some (JSON.stringify fmt (recordList rs)) →
      p.storageDenied = false → (initDataSdk p sdk st).1.currentRecords = recordList rs) ∧
    Effect.render (loadFromLocalStorage p st.storage) ∈ (initDataSdk p sdk st).2 := by
  have key : (initDataSdk p sdk st).1.useLocalStorage = true ∧
      (initDataSdk p sdk st).1.dataSdkReady = true ∧
      (initDataSdk p sdk st).1.currentRecords = loadFromLocalStorage p st.storage ∧
      (initDataSdk p sdk st).1.storage = st.storage ∧
      Effect.render (loadFromLocalStorage p st.storage) ∈ (initDataSdk p sdk st).2 := by
    rcases h with rfl | ⟨during, rfl | rfl⟩
    · refine ⟨rfl, rfl, rfl, rfl, ?_⟩
      simp only [initDataSdk, renderHistoryList, fallBack]
      split <;> simp
    · rw [initDataSdk_notOk_fst]
      refine ⟨rfl, rfl, ?_, ?_, ?_⟩
      · simp only [fallBack, deliver_storage]
      · simp only [fallBack, deliver_storage]
      · simp only [initDataSdk, fallBack, deliver_storage]
        split <;> simp
    · refine ⟨rfl, rfl, ?_, ?_, ?_⟩
      · simp only [initDataSdk, fallBack, deliver_storage]
      · simp only [initDataSdk, fallBack, deliver_storage]
      · simp only [initDataSdk, fallBack, deliver_storage, renderHistoryList]
        split <;> simp
  refine ⟨key.1, key.2.1, key.2.2.1, key.2.2.2.1, ?_, ?_, key.2.2.2.2⟩
  · intro hs
    rw [key.2.2.1, hs]
    simp only [loadFromLocalStorage]
    split <;> rfl
  · intro rs fmt hs hd
    rw [key.2.2.1, hs]
    exact load_serialised p fmt rs hd

/-- C8 on an SDK whose `init` returns not-ok after one notification. -/
theorem init_falls_back_to_local_witness :
    (initDataSdk calmPlatform (.present [some (recordList [sampleRecord])] .notOk)
      notReady).1.useLocalStorage = true ∧
    (initDataSdk calmPlatform (.present [some (recordList [sampleRecord])] .notOk)
      notReady).1.dataSdkReady = true ∧
    (initDataSdk calmPlatform (.present [some (recordList [sampleRecord])] .notOk)
      notReady).1.currentRecords = .array [] :=
  have h := init_falls_back_to_local calmPlatform
    (.present [some (recordList [sampleRecord])] .notOk) notReady
    (Or.inr ⟨_, Or.inl rfl⟩)
  ⟨h.1, h.2.1, h.2.2.2.2.1 rfl⟩

theorem record_toJS_injective (a b : Record) (h : a.toJS = b.toJS) : a = b := by
  obtain ⟨⟨a1, a2, a3, a4, a5, a6, a7, a8, a9, a10, a11, a12, a13, a14⟩, a15⟩ := a
  obtain ⟨⟨b1, b2, b3, b4, b5, b6, b7, b8, b9, b10, b11, b12, b13, b14⟩, b15⟩ := b
  simp only [Record.toJS, Payload.props, List.cons_append, List.nil_append,
    JSValue.object.injEq, List.cons.injEq, Prod.mk.injEq, JSValue.string.injEq, true_and,
    and_true] at h
  obtain ⟨h1, h2, h3, h4, h5, h6, h7, h8, h9, h10, h11, h12, h13, h14, h15⟩ := h
  subst h1 h2 h3 h4 h5 h6 h7 h8 h9 h10 h11 h12 h13 h14 h15
  rfl

theorem recordList_injective (rs rs2 : List Record) (h : recordList rs = recordList rs2) :
    rs = rs2 := by
  simp only [recordList, JSValue.array.injEq] at h
  exact List.map_injective_iff.2 (fun a b => record_toJS_injective a b) h

/-- C9. For every list of records: once `saveToLocalStorage` has written it
to the slot, `initDataSdk` with no data SDK (on a platform that lets the
slot be read) ends with the in-memory list equal to that list, and the only
list of records it is equal to is the original one, record for record, with
the same field values and the same identities. -/
theorem local_list_round_trip (p q : Platform) (st : State) (rs : List Record)
    (hw : (saveToLocalStorage p st.storage (recordList rs)).2 = true)
    (hq : q.storageDenied = false) :
    (initDataSdk q .absent
      { st with storage := (saveToLocalStorage p st.storage (recordList rs)).1 }).1.currentRecords
        = recordList rs ∧
    ∀ rs2, (initDataSdk q .absent
      { st with storage := (saveToLocalStorage p st.storage (recordList rs)).1 }).1.currentRecords
        = recordList rs2 → rs2 = rs := by
  have e : (initDataSdk q .absent
      { st with storage := (saveToLocalStorage p st.storage (recordList rs)).1 }).1.currentRecords
        = recordList rs := load_after_write p q st.storage rs hw hq
  refine ⟨e, ?_⟩
  intro rs2 h2
  exact recordList_injective rs2 rs (h2.symm.trans e)

/-- C9 on a list of two records. -/
theorem local_list_round_trip_witness :
    (saveToLocalStorage calmPlatform none (recordList [sampleRecord, sampleRecord])).2 = true ∧
    (initDataSdk calmPlatform .absent
      { notReady with
        storage := (saveToLocalStorage calmPlatform notReady.storage
          (recordList [sampleRecord, sampleRecord])).1 }).1.currentRecords
        = recordList [sampleRecord, sampleRecord] :=
  ⟨rfl, (local_list_round_trip calmPlatform calmPlatform notReady
    [sampleRecord, sampleRecord] rfl rfl).1⟩

/-- C10 (counterexample). A slot holding the text `null` is not the
serialisation of a list of records, and loading it yields the value `null`,
which is not a list. -/
theorem load_yields_non_list :
    loadFromLocalStorage calmPlatform nullSlot = JSValue.null ∧
    ¬ ∃ xs, loadFromLocalStorage calmPlatform nullSlot = JSValue.array xs := by
  have e : loadFromLocalStorage calmPlatform nullSlot = JSValue.null := rfl
  refine ⟨e, ?_⟩
  rintro ⟨xs, h⟩
  rw [e] at h
  cases h

/-- C10 (amended). Loading is total: it yields the empty list when the slot
is absent, holds the empty string, cannot be read or does not hold valid
JSON; it yields the persisted list when the slot holds the serialisation of
a list of records; in every other case it yields the value the text of the
slot parses to, whatever its kind. -/
theorem load_total (p : Platform) (storage : Option JSString) :
    (storage = none → loadFromLocalStorage p storage = .array []) ∧
    (p.storageDenied = true → loadFromLocalStorage p storage = .array []) ∧
    (∀ data, storage = some data → data = [] ∨ JSON.parse data = none →
      loadFromLocalStorage p storage = .array []) ∧
    (∀ rs fmt, storage = some (JSON.stringify fmt (recordList rs)) →
      p.storageDenied = false → loadFromLocalStorage p storage = recordList rs) ∧
    (∀ data v, storage = some data → p.storageDenied = false → data ≠ [] →
      JSON.parse data = some v → loadFromLocalStorage p storage = v) := by
  refine ⟨?_, ?_, ?_, ?_, ?_⟩
  · rintro rfl
    simp only [loadFromLocalStorage]
    split <;> rfl
  · intro hd
    simp [loadFromLocalStorage, hd]
  · rintro data rfl h
    simp only [loadFromLocalStorage]
    split
    · rfl
    · rcases h with rfl | h
      · rfl
      · rw [h]
        split <;> rfl
  · rintro rs fmt rfl hd
    exact load_serialised p fmt rs hd
  · rintro data v rfl hd hne hp
    cases data with
    | nil => exact absurd rfl hne
    | cons c cs => simp [loadFromLocalStorage, hd, hp]

/-- C10 (amended) on an absent slot, a broken text and a stored list. -/
theorem load_total_witness :
    loadFromLocalStorage calmPlatform none = .array [] ∧
    loadFromLocalStorage calmPlatform (some (lit "[1,")) = .array [] ∧
    loadFromLocalStorage calmPlatform
      (some (JSON.stringify calmPlatform.numberText (recordList [sampleRecord]))) =
        recordList [sampleRecord] :=
  have h := load_total calmPlatform
  ⟨(h none).1 rfl, (h (some (lit "[1,"))).2.2.1 _ rfl (Or.inr rfl),
    (h _).2.2.2.1 [sampleRecord] _ rfl rfl⟩

/-! ## Mode and readiness after start-up -/

theorem saveLocal_mode (p : Platform) (payload : Payload) (st : State) :
    (saveLocal p payload st).1.useLocalStorage = st.useLocalStorage ∧
    (saveLocal p payload st).1.dataSdkReady = st.dataSdkReady := by
  by_cases ha : ∃ records, loadFromLocalStorage p st.storage = .array records
  · obtain ⟨records, hl⟩ := ha
    rw [saveLocal_fst p _ st records hl]
    exact ⟨rfl, rfl⟩
  · rw [saveLocal_fst_of_not_array p _ st (fun records h => ha ⟨records, h⟩)]
    exact ⟨rfl, rfl⟩

theorem btnSaveClick_mode (p : Platform) (remote : CreateOutcome) (st : State) :
    (btnSaveClick p remote st).1.useLocalStorage = st.useLocalStorage ∧
    (btnSaveClick p remote st).1.dataSdkReady = st.dataSdkReady := by
  unfold btnSaveClick
  split
  · exact ⟨rfl, rfl⟩
  · split
    · exact ⟨rfl, rfl⟩
    · split
      · exact ⟨rfl, rfl⟩
      · exact ⟨rfl, rfl⟩
      · split
        · exact saveLocal_mode p _ st
        · unfold saveRemote
          split <;> exact ⟨rfl, rfl⟩

theorem step_mode (e : Event) (st : State) :
    (step e st).useLocalStorage = st.useLocalStorage ∧
    (step e st).dataSdkReady = st.dataSdkReady := by
  cases e with
  | generated content => exact ⟨rfl, rfl⟩
  | save p remote => exact btnSaveClick_mode p remote st
  | changed p data => exact ⟨rfl, rfl⟩

theorem run_mode (evs : List Event) :
    ∀ st : State, (run evs st).useLocalStorage = st.useLocalStorage ∧
      (run evs st).dataSdkReady = st.dataSdkReady := by
  induction evs with
  | nil => intro st; exact ⟨rfl, rfl⟩
  | cons e es ih =>
    intro st
    rw [run, (ih (step e st)).1, (ih (step e st)).2]
    exact step_mode e st

/-- C11. From a ready state, a save (whatever its outcome: saved, rejected
by a guard, failed) and a change notification each leave the mode flag as it
was and the readiness flag set, and so does every sequence of generations,
saves and change notifications. -/
theorem mode_and_readiness_fixed (st : State) (hr : st.dataSdkReady = true) :
    (∀ p remote, (btnSaveClick p remote st).1.useLocalStorage = st.useLocalStorage ∧
      (btnSaveClick p remote st).1.dataSdkReady = true) ∧
    (∀ p data, (onDataChanged p data st).1.useLocalStorage = st.useLocalStorage ∧
      (onDataChanged p data st).1.dataSdkReady = true) ∧
    (∀ evs, (run evs st).useLocalStorage = st.useLocalStorage ∧
      (run evs st).dataSdkReady = true) := by
  refine ⟨fun p remote => ?_, fun p data => ⟨rfl, hr⟩, fun evs => ?_⟩
  · have h := btnSaveClick_mode p remote st
    exact ⟨h.1, h.2.trans hr⟩
  · have h := run_mode evs st
    exact ⟨h.1, h.2.trans hr⟩

/-- C11 on a remote session: a failed save, a notification, a generation and
a save. -/
theorem mode_and_readiness_fixed_witness :
    readyRemote.dataSdkReady = true ∧
    (run [.save calmPlatform (.fault (lit "offline")),
      .changed calmPlatform (some (recordList [sampleRecord])),
      .generated longScript, .save fullQuota .ok] readyRemote).useLocalStorage = false ∧
    (run [.save calmPlatform (.fault (lit "offline")),
      .changed calmPlatform (some (recordList [sampleRecord])),
      .generated longScript, .save fullQuota .ok] readyRemote).dataSdkReady = true :=
  ⟨rfl, (mode_and_readiness_fixed readyRemote rfl).2.2 _⟩

/-! ## Identities synthesized in local mode -/

theorem decDigits_acc (fuel : Nat) :
    ∀ (n : Nat) (acc : JSString), decDigits fuel n acc = decDigits fuel n [] ++ acc := by
  induction fuel with
  | zero => intro n acc; rfl
  | succ fuel ih =>
    intro n acc
    by_cases h : n < 10
    · simp [decDigits, h]
    · simp only [decDigits, h, if_false]
      rw [ih (n / 10) ((48 + n % 10) :: acc), ih (n / 10) [48 + n % 10]]
      simp

theorem decDigits_isDigit (fuel : Nat) :
    ∀ (n : Nat), ∀ c ∈ decDigits fuel n [], isDigit c = true := by
  induction fuel with
  | zero => intro n c hc; simp [decDigits] at hc
  | succ fuel ih =>
    intro n c hc
    by_cases h : n < 10
    · simp only [decDigits, h, if_true, List.mem_singleton] at hc
      subst hc
      simp [isDigit]
      omega
    · simp only [decDigits, h, if_false] at hc
      rw [decDigits_acc] at hc
      rcases List.mem_append.1 hc with h1 | h1
      · exact ih _ c h1
      · simp only [List.mem_singleton] at h1
        subst h1
        simp [isDigit]
        omega

theorem decDigits_ne_nil (fuel n : Nat) : decDigits (fuel + 1) n [] ≠ [] := by
  by_cases h : n < 10
  · simp [decDigits, h]
  · simp only [decDigits, h, if_false]
    rw [decDigits_acc]
    simp

theorem digitsValue_append (xs : JSString) (d : Nat) :
    digitsValue (xs ++ [d]) = digitsValue xs * 10 + (d - 48) := by
  simp [digitsValue, List.foldl_append]

theorem digitsValue_decDigits (fuel : Nat) :
    ∀ n : Nat, n < fuel → digitsValue (decDigits fuel n []) = n := by
  induction fuel with
  | zero => intro n h; omega
  | succ fuel ih =>
    intro n hn
    by_cases h : n < 10
    · simp [decDigits, h, digitsValue]
    · simp only [decDigits, h, if_false]
      rw [decDigits_acc, digitsValue_append, ih (n / 10) (by omega)]
      omega

theorem numberToString_injective (a b : Int) (h : numberToString a = numberToString b) :
    a = b := by
  cases a with
  | ofNat n =>
    cases b with
    | ofNat m =>
      simp only [numberToString] at h
      have e := congrArg digitsValue h
      rw [digitsValue_decDigits _ n (by omega), digitsValue_decDigits _ m (by omega)] at e
      rw [e]
    | negSucc m =>
      simp only [numberToString] at h
      have hm : (45 : Nat) ∈ decDigits (n + 1) n [] := by rw [h]; simp
      have := decDigits_isDigit _ n 45 hm
      simp [isDigit] at this
  | negSucc n =>
    cases b with
    | ofNat m =>
      simp only [numberToString] at h
      have hm : (45 : Nat) ∈ decDigits (m + 1) m [] := by rw [← h]; simp
      have := decDigits_isDigit _ m 45 hm
      simp [isDigit] at this
    | negSucc m =>
      simp only [numberToString, List.cons.injEq, true_and] at h
      have e := congrArg digitsValue h
      rw [digitsValue_decDigits _ (n + 1) (by omega),
        digitsValue_decDigits _ (m + 1) (by omega)] at e
      have : n = m := by omega
      rw [this]

theorem numberToString_no_underscore (a : Int) : (95 : Nat) ∉ numberToString a := by
  intro h
  cases a with
  | ofNat n =>
    have := decDigits_isDigit _ n 95 h
    simp [isDigit] at this
  | negSucc n =>
    simp only [numberToString, List.mem_cons] at h
    rcases h with h | h
    · omega
    · have := decDigits_isDigit _ (n + 1) 95 h
      simp [isDigit] at this

theorem split_at_separator (c : Nat) :
    ∀ (xs ys s t : JSString), c ∉ xs → c ∉ ys → xs ++ c :: s = ys ++ c :: t →
      xs = ys ∧ s = t := by
  intro xs
  induction xs with
  | nil =>
    intro ys s t _ hy h
    cases ys with
    | nil => simpa using h
    | cons y ys =>
      simp only [List.nil_append, List.cons_append, List.cons.injEq] at h
      exact absurd (by simp [h.1]) hy
  | cons x xs ih =>
    intro ys s t hx hy h
    cases ys with
    | nil =>
      simp only [List.nil_append, List.cons_append, List.cons.injEq] at h
      exact absurd (by simp [h.1]) hx
    | cons y ys =>
      simp only [List.cons_append, List.cons.injEq] at h
      have r := ih ys s t (fun m => hx (List.mem_cons_of_mem _ m))
        (fun m => hy (List.mem_cons_of_mem _ m)) h.2
      exact ⟨by rw [h.1, r.1], r.2⟩

theorem localBackendId_eq (p : Platform) :
    localBackendId p = lit "local_" ++ (numberToString p.now ++ 95 :: randomSuffix p) := by
  simp only [localBackendId, randomSuffix, List.append_assoc]
  rfl

/-- Two synthesized identities are equal only when both the clock reading
and the random suffix are. -/
theorem localBackendId_injective (p q : Platform) (h : localBackendId p = localBackendId q) :
    p.now = q.now ∧ randomSuffix p = randomSuffix q := by
  rw [localBackendId_eq, localBackendId_eq] at h
  have h2 := List.append_cancel_left h
  have r := split_at_separator 95 _ _ _ _ (numberToString_no_underscore p.now)
    (numberToString_no_underscore q.now) h2
  exact ⟨numberToString_injective _ _ r.1, r.2⟩

theorem load_of_slotHolds (p : Platform) (storage : Option JSString) (rs : List Record)
    (h : SlotHolds storage rs) :
    loadFromLocalStorage p storage =
      recordList (if p.storageDenied = true then [] else rs) := by
  by_cases hd : p.storageDenied = true
  · simp [loadFromLocalStorage, hd, recordList]
  · have hd2 : p.storageDenied = false := by simpa using hd
    rw [if_neg hd]
    rcases h with ⟨rfl, rfl⟩ | ⟨fmt, rfl⟩
    · simp [loadFromLocalStorage, hd2, recordList]
    · exact load_serialised p fmt rs hd2

theorem btnSaveClick_fst_cases (p : Platform) (remote : CreateOutcome) (st : State)
    (hm : st.useLocalStorage = true) :
    (btnSaveClick p remote st).1 = st ∨
      ∃ content, (btnSaveClick p remote st).1 =
        (saveLocal p (buildPayload content p.isoNow) st).1 := by
  unfold btnSaveClick
  split
  · exact Or.inl rfl
  · rename_i content _
    split
    · exact Or.inl rfl
    · split
      · exact Or.inl rfl
      · exact Or.inl rfl
      · exact Or.inr ⟨content, rfl⟩

theorem LocalInv.mono (ids more : List JSString) (st : State) (h : LocalInv ids st) :
    LocalInv (ids ++ more) st := by
  obtain ⟨hm, a, b, hs, hc, sa, sb⟩ := h
  exact ⟨hm, a, b, hs, hc, sa.trans (List.sublist_append_left _ _),
    sb.trans (List.sublist_append_left _ _)⟩

theorem saveLocal_inv (p : Platform) (payload : Payload) (ids : List JSString) (st : State)
    (h : LocalInv ids st) :
    LocalInv (ids ++ [localBackendId p]) (saveLocal p payload st).1 := by
  obtain ⟨hm, a, b, hs, hc, sa, sb⟩ := h
  have hl := load_of_slotHolds p st.storage a hs
  rw [saveLocal_fst p payload st _ hl, newRecord_eq, recordList_append]
  by_cases hw : (saveToLocalStorage p st.storage (recordList
      ((if p.storageDenied = true then [] else a) ++ [⟨payload, localBackendId p⟩]))).2 = true
  · have hd := (saveToLocalStorage_fst_of_ok p st.storage _ hw).2
    have e : (if p.storageDenied = true then [] else a) = a := by simp [hd]
    rw [e] at hw ⊢
    refine ⟨hm, a ++ [⟨payload, localBackendId p⟩], a ++ [⟨payload, localBackendId p⟩],
      ?_, ?_, ?_, ?_⟩
    · exact Or.inr ⟨p.numberText, (saveToLocalStorage_fst_of_ok p st.storage _ hw).1⟩
    · exact load_after_write p p st.storage _ hw hd
    · simpa using List.Sublist.append sa (List.Sublist.refl [localBackendId p])
    · simpa using List.Sublist.append sa (List.Sublist.refl [localBackendId p])
  · have hw2 : (saveToLocalStorage p st.storage (recordList
        ((if p.storageDenied = true then [] else a) ++ [⟨payload, localBackendId p⟩]))).2
          = false := by simpa using hw
    rw [saveToLocalStorage_fst_of_fail p st.storage _ hw2]
    refine ⟨hm, a, if p.storageDenied = true then [] else a, hs, hl,
      sa.trans (List.sublist_append_left _ _), ?_⟩
    split
    · simp
    · exact sa.trans (List.sublist_append_left _ _)

theorem step_inv (e : Event) (ids : List JSString) (st : State) (h : LocalInv ids st)
    (he : e.isChanged = false) :
    LocalInv (ids ++ (e.identity).toList) (step e st) := by
  cases e with
  | generated content =>
    obtain ⟨hm, a, b, hs, hc, sa, sb⟩ := h
    simpa [Event.identity, step] using
      (show LocalInv ids { st with lastGeneratedContent := some content } from
        ⟨hm, a, b, hs, hc, sa, sb⟩)
  | save p remote =>
    simp only [Event.identity, Option.toList, step]
    rcases btnSaveClick_fst_cases p remote st h.1 with e | ⟨content, e⟩
    · rw [e]; exact LocalInv.mono _ _ _ h
    · rw [e]; exact saveLocal_inv p _ ids st h
  | changed p data => simp [Event.isChanged] at he

theorem run_inv (evs : List Event) :
    ∀ (ids : List JSString) (st : State), LocalInv ids st →
      (∀ e ∈ evs, e.isChanged = false) →
      LocalInv (ids ++ evs.filterMap Event.identity) (run evs st) := by
  induction evs with
  | nil => intro ids st h _; simpa [run] using h
  | cons e es ih =>
    intro ids st h he
    have h1 := step_inv e ids st h (he e (by simp))
    have h2 := ih _ _ h1 (fun x hx => he x (List.mem_cons_of_mem _ hx))
    rw [run]
    cases hi : e.identity with
    | none => simpa [List.filterMap_cons, hi] using h2
    | some i => simpa [List.filterMap_cons, hi, List.append_assoc] using h2

theorem identityOf_injective : Function.Injective identityOf := by
  intro x y h
  obtain ⟨a, s⟩ := x
  obtain ⟨b, t⟩ := y
  simp only [identityOf] at h
  have h2 := List.append_cancel_left h
  have r := split_at_separator 95 _ _ _ _ (numberToString_no_underscore a)
    (numberToString_no_underscore b) h2
  rw [numberToString_injective _ _ r.1, r.2]

theorem identities_eq_map_draws (evs : List Event) :
    evs.filterMap Event.identity = (evs.filterMap Event.draw).map identityOf := by
  induction evs with
  | nil => rfl
  | cons e es ih =>
    cases e with
    | generated content => simpa [List.filterMap_cons, Event.identity, Event.draw] using ih
    | save p remote =>
      simp only [List.filterMap_cons, Event.identity, Event.draw, List.map_cons, ih]
      rw [localBackendId_eq]
      rfl
    | changed p data => simpa [List.filterMap_cons, Event.identity, Event.draw] using ih

/-- The state after a save in local mode whose write succeeds. -/
theorem btnSaveClick_local_written (p : Platform) (remote : CreateOutcome) (st : State)
    (content : Content) (rs : List Record)
    (hc : st.lastGeneratedContent = some content) (hr : st.dataSdkReady = true)
    (hm : st.useLocalStorage = true) (hmem : st.currentRecords = recordList rs)
    (hdisk : loadFromLocalStorage p st.storage = recordList rs) (hlt : rs.length < 999)
    (hw : (saveToLocalStorage p st.storage
      (recordList (rs ++ [⟨buildPayload content p.isoNow, localBackendId p⟩]))).2 = true) :
    (btnSaveClick p remote st).1 =
      { st with
        storage := some (JSON.stringify p.numberText
          (recordList (rs ++ [⟨buildPayload content p.isoNow, localBackendId p⟩])))
        currentRecords :=
          recordList (rs ++ [⟨buildPayload content p.isoNow, localBackendId p⟩]) } := by
  have hcap : capacityReached p st.currentRecords = some false := by
    rw [hmem]
    simp only [recordList, capacityReached, List.length_map]
    simp [hlt]
  have e : (btnSaveClick p remote st).1 = (saveLocal p (buildPayload content p.isoNow) st).1 := by
    simp [btnSaveClick, hc, hr, hm, hcap]
  have hd := (saveToLocalStorage_fst_of_ok p st.storage _ hw).2
  have hl := load_after_write p p st.storage _ hw hd
  rw [e, saveLocal_fst p _ st (rs.map Record.toJS) hdisk, newRecord_eq, recordList_append, hl,
    (saveToLocalStorage_fst_of_ok p st.storage _ hw).1]

/-- C12 (counterexample). Local mode, empty history: two saves that read the
same clock value and draw the same random number leave a list of two records
with one and the same identity. -/
theorem same_draw_same_identity :
    emptyLocal.useLocalStorage = true ∧
    (run sameDraw emptyLocal).currentRecords = recordList [sampleRecord, sampleRecord] ∧
    ¬ ([sampleRecord, sampleRecord].map Record.backendId).Nodup := by
  refine ⟨rfl, ?_, by simp⟩
  have h1 := btnSaveClick_local_written calmPlatform .ok emptyLocal sampleContent [] rfl rfl
    rfl rfl rfl (by decide) rfl
  have h2 := btnSaveClick_local_written calmPlatform .ok (btnSaveClick calmPlatform .ok
    emptyLocal).1 sampleContent [sampleRecord] (by rw [h1]; rfl) (by rw [h1]; rfl)
    (by rw [h1]; rfl) (by rw [h1]; rfl)
    (by rw [h1]; exact load_serialised calmPlatform _ [sampleRecord] rfl) (by decide) rfl
  simp only [sameDraw, run, step]
  rw [h2]
  rfl

/-- C12 (amended). A session in local mode that starts with the slot and the
memory holding the same records, all of different identities: after any
sequence of generations and saves in which no two saves see both the same
clock reading and the same random suffix, and none synthesizes an identity
the starting list already has, the in-memory list is a list of records of
pairwise different identities. -/
theorem local_identities_distinct (evs : List Event) (st : State) (rs0 : List Record)
    (hm : st.useLocalStorage = true) (hmem : st.currentRecords = recordList rs0)
    (hslot : SlotHolds st.storage rs0) (hev : ∀ e ∈ evs, e.isChanged = false)
    (h0 : (rs0.map Record.backendId).Nodup)
    (hnew : ∀ d ∈ evs.filterMap Event.draw, identityOf d ∉ rs0.map Record.backendId)
    (hnd : (evs.filterMap Event.draw).Nodup) :
    ∃ rs, (run evs st).currentRecords = recordList rs ∧
      (rs.map Record.backendId).Nodup := by
  have inv : LocalInv (rs0.map Record.backendId) st :=
    ⟨hm, rs0, rs0, hslot, hmem, List.Sublist.refl _, List.Sublist.refl _⟩
  obtain ⟨_, a, b, _, hb, _, sb⟩ := run_inv evs _ st inv hev
  refine ⟨b, hb, List.Nodup.sublist sb ?_⟩
  rw [identities_eq_map_draws, List.nodup_append]
  refine ⟨h0, hnd.map identityOf_injective, ?_⟩
  intro i hi hi2
  obtain ⟨d, hd, rfl⟩ := List.mem_map.1 hi2
  exact hnew d hd hi

/-- C12 (amended) on two saves one millisecond apart. -/
theorem local_identities_distinct_witness :
    (twoSaves.filterMap Event.draw).Nodup ∧
    ∃ rs, (run twoSaves emptyLocal).currentRecords = recordList rs ∧
      (rs.map Record.backendId).Nodup :=
  have hnd : (twoSaves.filterMap Event.draw).Nodup := by
    simp [twoSaves, Event.draw, calmPlatform, laterPlatform]
  ⟨hnd, local_identities_distinct twoSaves emptyLocal [] rfl rfl (Or.inl ⟨rfl, rfl⟩)
    (by intro e he
        simp only [twoSaves, List.mem_cons, List.mem_singleton, List.not_mem_nil,
          or_false] at he
        rcases he with h | h | h <;> (subst h; rfl))
    (by simp) (by simp) hnd⟩

/-! ## The first save of a local session -/

theorem randomSuffix_base36 (p : Platform) (h : isRandomText p.randomText = true) :
    (randomSuffix p).all isBase36 = true ∧ (randomSuffix p).length ≤ 9 := by
  refine ⟨?_, by simp [randomSuffix, List.length_take]⟩
  unfold randomSuffix
  unfold isRandomText at h
  split at h
  · rename_i heq
    rw [heq]
    rfl
  · rename_i d ds heq
    rw [heq]
    rw [List.all_eq_true] at h ⊢
    intro c hc
    exact h c (List.mem_of_mem_take hc)
  · simp at h

theorem numberToString_digits (n : Int) (h : 0 ≤ n) :
    numberToString n ≠ [] ∧ (numberToString n).all isDigit = true := by
  cases n with
  | ofNat m =>
    refine ⟨decDigits_ne_nil m m, ?_⟩
    rw [List.all_eq_true]
    exact decDigits_isDigit _ m
  | negSucc m => exact absurd h (by simp [Int.negSucc_lt_zero])

theorem topic_kept (c : Content) (isoNow : JSString) (h : c.topic = lit "Vlogging Tips") :
    (buildPayload c isoNow).topic = lit "Vlogging Tips" := by
  simp only [buildPayload, h]
  rfl

theorem randomSuffix_eq_nil (p : Platform) (h : isRandomText p.randomText = true) :
    randomSuffix p = [] ↔ p.randomText = [48] := by
  unfold randomSuffix
  unfold isRandomText at h
  split at h
  · rename_i heq
    rw [heq]
    simp
  · rename_i d ds heq
    rw [heq]
    simp
  · simp at h

theorem numberToString_negative (n : Int) (h : n < 0) :
    ∃ ds, numberToString n = 45 :: ds ∧ ds ≠ [] ∧ ds.all isDigit = true := by
  cases n with
  | ofNat m => exact absurd h (by simp)
  | negSucc m =>
    refine ⟨decDigits (m + 2) (m + 1) [], rfl, decDigits_ne_nil (m + 1) (m + 1), ?_⟩
    rw [List.all_eq_true]
    exact decDigits_isDigit _ (m + 1)

/-- The state after a save in local mode whose write is refused, from an
empty persisted list. -/
theorem btnSaveClick_local_refused (p : Platform) (remote : CreateOutcome) (st : State)
    (content : Content) (hc : st.lastGeneratedContent = some content)
    (hr : st.dataSdkReady = true) (hm : st.useLocalStorage = true)
    (hmem : st.currentRecords = recordList [])
    (hdisk : loadFromLocalStorage p st.storage = recordList [])
    (hw : (saveToLocalStorage p st.storage
      (recordList [⟨buildPayload content p.isoNow, localBackendId p⟩])).2 = false) :
    (btnSaveClick p remote st).1.currentRecords = JSValue.array [] ∧
      (btnSaveClick p remote st).1.storage = st.storage := by
  have hcap : capacityReached p st.currentRecords = some false := by
    rw [hmem]
    simp [recordList, capacityReached]
  have e : (btnSaveClick p remote st).1 = (saveLocal p (buildPayload content p.isoNow) st).1 := by
    simp [btnSaveClick, hc, hr, hm, hcap]
  have hw2 : (saveToLocalStorage p st.storage
      (.array ([] ++ [newRecord p (buildPayload content p.isoNow)]))).2 = false := hw
  rw [e, saveLocal_fst p _ st [] hdisk, saveToLocalStorage_fst_of_fail p st.storage _ hw2]
  exact ⟨hdisk, rfl⟩

/-- C13 (counterexample). Local mode, ready, empty persisted list, a content
whose topic is "Vlogging Tips". With the storage quota used up the save
leaves the in-memory list empty. With a clock reading of -5 and the draw 0.5
the identity is `local_-5_i`, whose timestamp part starts with a minus sign.
With the draw 0 the identity is `local_1700000000000_`, with no suffix at
all. -/
theorem first_save_scenario_fails :
    emptyLocal.useLocalStorage = true ∧ emptyLocal.dataSdkReady = true ∧
    sampleContent.topic = lit "Vlogging Tips" ∧
    (btnSaveClick fullQuota .ok emptyLocal).1.currentRecords = JSValue.array [] ∧
    (btnSaveClick beforeEpoch .ok emptyLocal).1.currentRecords =
      recordList [⟨buildPayload sampleContent beforeEpoch.isoNow, lit "local_-5_i"⟩] ∧
    (btnSaveClick zeroDraw .ok emptyLocal).1.currentRecords =
      recordList [⟨buildPayload sampleContent zeroDraw.isoNow, lit "local_1700000000000_"⟩] := by
  refine ⟨rfl, rfl, rfl, ?_, ?_, ?_⟩
  · exact (btnSaveClick_local_refused fullQuota .ok emptyLocal sampleContent rfl rfl rfl rfl
      rfl rfl).1
  · rw [btnSaveClick_local_written beforeEpoch .ok emptyLocal sampleContent [] rfl rfl rfl rfl
      rfl (by decide) rfl]
    rfl
  · rw [btnSaveClick_local_written zeroDraw .ok emptyLocal sampleContent [] rfl rfl rfl rfl
      rfl (by decide) rfl]
    rfl

/-- C13 (amended). Local mode, ready, an empty persisted list and an empty
in-memory list, a content whose topic is "Vlogging Tips", any clock reading
and any random draw. When the write succeeds the save leaves an in-memory
list of exactly one record, with topic "Vlogging Tips" and with the
`__backendId` made of "local_", the clock reading in decimal, "_" and the
random suffix; when the write is refused the in-memory list stays empty and
the slot is not touched. The clock reading in decimal is one or more digits
when the reading is not negative, and a minus sign followed by one or more
digits otherwise. The suffix has at most nine characters, each a digit or a
lower-case letter, and it is empty exactly when the draw is 0. -/
theorem first_local_save (p : Platform) (remote : CreateOutcome) (st : State)
    (content : Content) (hc : st.lastGeneratedContent = some content)
    (ht : content.topic = lit "Vlogging Tips") (hr : st.dataSdkReady = true)
    (hm : st.useLocalStorage = true) (hmem : st.currentRecords = recordList [])
    (hdisk : loadFromLocalStorage p st.storage = recordList [])
    (hrand : isRandomText p.randomText = true) :
    ((saveToLocalStorage p st.storage
        (recordList [⟨buildPayload content p.isoNow, localBackendId p⟩])).2 = true →
      ∃ r : Record,
        (btnSaveClick p remote st).1.currentRecords = JSValue.array [r.toJS] ∧
        r.fields.topic = lit "Vlogging Tips" ∧
        r.backendId = lit "local_" ++ numberToString p.now ++ lit "_" ++ randomSuffix p) ∧
    ((saveToLocalStorage p st.storage
        (recordList [⟨buildPayload content p.isoNow, localBackendId p⟩])).2 = false →
      (btnSaveClick p remote st).1.currentRecords = JSValue.array [] ∧
      (btnSaveClick p remote st).1.storage = st.storage) ∧
    (0 ≤ p.now → numberToString p.now ≠ [] ∧ (numberToString p.now).all isDigit = true) ∧
    (p.now < 0 → ∃ ds, numberToString p.now = 45 :: ds ∧ ds ≠ [] ∧
      ds.all isDigit = true) ∧
    (randomSuffix p).all isBase36 = true ∧ (randomSuffix p).length ≤ 9 ∧
    (randomSuffix p = [] ↔ p.randomText = [48]) := by
  refine ⟨?_, ?_, numberToString_digits p.now, numberToString_negative p.now,
    (randomSuffix_base36 p hrand).1, (randomSuffix_base36 p hrand).2,
    randomSuffix_eq_nil p hrand⟩
  · intro hw
    refine ⟨⟨buildPayload content p.isoNow, localBackendId p⟩, ?_, topic_kept content _ ht,
      rfl⟩
    rw [btnSaveClick_local_written p remote st content [] hc hr hm hmem hdisk (by simp) hw]
    rfl
  · intro hw
    exact btnSaveClick_local_refused p remote st content hc hr hm hmem hdisk hw

/-- C13 (amended) on the sample platform: the identity is
`local_1700000000000_4fzyo82mv`. -/
theorem first_local_save_witness :
    isRandomText calmPlatform.randomText = true ∧
    ∃ r : Record,
      (btnSaveClick calmPlatform .ok emptyLocal).1.currentRecords = JSValue.array [r.toJS] ∧
      r.fields.topic = lit "Vlogging Tips" ∧
      r.backendId = lit "local_1700000000000_4fzyo82mv" := by
  obtain ⟨r, h1, h2, h3⟩ := (first_local_save calmPlatform .ok emptyLocal sampleContent rfl
    rfl rfl rfl rfl rfl rfl).1 rfl
  exact ⟨rfl, r, h1, h2, h3.trans rfl⟩

/-! ## Who refreshes the list -/

theorem saveRemote_no_render (remote : CreateOutcome) (payload : Payload) (st : State)
    (v : JSValue) : Effect.render v ∉ (saveRemote remote payload st).2 := by
  cases remote <;> simp [saveRemote, savingLabel, idleLabel]

theorem btnSaveClick_remote (p : Platform) (remote : CreateOutcome) (st : State)
    (hm : st.useLocalStorage = false) :
    (btnSaveClick p remote st).1 = st ∧
      ∀ v, Effect.render v ∉ (btnSaveClick p remote st).2 := by
  unfold btnSaveClick
  split
  · exact ⟨rfl, fun v => by simp⟩
  · split
    · exact ⟨rfl, fun v => by simp⟩
    · split
      · exact ⟨rfl, fun v => by simp⟩
      · exact ⟨rfl, fun v => by simp⟩
      · simp only [hm, Bool.false_eq_true, if_false]
        refine ⟨?_, fun v => saveRemote_no_render remote _ st v⟩
        cases remote <;> rfl

theorem saveLocal_renders (p : Platform) (payload : Payload) (st : State)
    (records : List JSValue) (h : loadFromLocalStorage p st.storage = .array records) :
    Effect.render (saveLocal p payload st).1.currentRecords ∈ (saveLocal p payload st).2 := by
  simp only [saveLocal, addToLocalStorage, h]
  split <;> simp

/-- C14 (counterexample). Remote mode, ready, empty history, `create`
returning a result with `isOk`: the save shows its success toast, leaves the
in-memory list empty and never calls `renderHistoryList`. -/
theorem remote_save_does_not_refresh :
    readyRemote.useLocalStorage = false ∧
    Effect.toast (lit "Saved to history successfully!") false ∈
      (btnSaveClick calmPlatform .ok readyRemote).2 ∧
    (btnSaveClick calmPlatform .ok readyRemote).1.currentRecords = JSValue.array [] ∧
    ∀ v, Effect.render v ∉ (btnSaveClick calmPlatform .ok readyRemote).2 := by
  have h := btnSaveClick_remote calmPlatform .ok readyRemote rfl
  refine ⟨rfl, ?_, by rw [h.1]; rfl, h.2⟩
  have e : (btnSaveClick calmPlatform .ok readyRemote).2 =
      [savingLabel, .create (buildPayload sampleContent calmPlatform.isoNow).toJS,
        .toast (lit "Saved to history successfully!") false, idleLabel] := rfl
  rw [e]
  simp

/-- C14 (amended). In local mode a save whose write succeeds itself reloads
the in-memory list, which then ends with the saved record, and calls
`renderHistoryList` on it before it returns. In remote mode a save, also a
successful one, leaves the in-memory list as it was and does not call
`renderHistoryList`; there the list is replaced and rendered by the change
notification of the data SDK (`onDataChanged`). -/
theorem refresh_by_mode (p : Platform) (remote : CreateOutcome) (st : State)
    (content : Content) (hc : st.lastGeneratedContent = some content)
    (hr : st.dataSdkReady = true) :
    (st.useLocalStorage = true →
      ∀ rs, st.currentRecords = recordList rs →
        loadFromLocalStorage p st.storage = recordList rs → rs.length < 999 →
        (saveToLocalStorage p st.storage
          (recordList (rs ++ [⟨buildPayload content p.isoNow, localBackendId p⟩]))).2 = true →
        (btnSaveClick p remote st).1.currentRecords =
          recordList (rs ++ [⟨buildPayload content p.isoNow, localBackendId p⟩]) ∧
        Effect.render (recordList (rs ++ [⟨buildPayload content p.isoNow, localBackendId p⟩]))
          ∈ (btnSaveClick p remote st).2) ∧
    (st.useLocalStorage = false →
      (btnSaveClick p remote st).1.currentRecords = st.currentRecords ∧
      ∀ v, Effect.render v ∉ (btnSaveClick p remote st).2) ∧
    (∀ rs, (onDataChanged p (some (recordList rs)) st).1.currentRecords = recordList rs ∧
      Effect.render (recordList rs) ∈ (onDataChanged p (some (recordList rs)) st).2) := by
  refine ⟨?_, ?_, ?_⟩
  · intro hm rs hmem hdisk hlt hw
    have hs := btnSaveClick_local_written p remote st content rs hc hr hm hmem hdisk hlt hw
    have hcap : capacityReached p st.currentRecords = some false := by
      rw [hmem]
      simp only [recordList, capacityReached, List.length_map]
      simp [hlt]
    have e : btnSaveClick p remote st = saveLocal p (buildPayload content p.isoNow) st := by
      simp [btnSaveClick, hc, hr, hm, hcap]
    refine ⟨by rw [hs], ?_⟩
    have hrender := saveLocal_renders p (buildPayload content p.isoNow) st _ hdisk
    rw [← e, hs] at hrender
    exact hrender
  · intro hm
    have h := btnSaveClick_remote p remote st hm
    exact ⟨by rw [h.1], h.2⟩
  · intro rs
    have e : (onDataChanged p (some (recordList rs)) st) =
        ({ st with currentRecords := recordList rs }, renderHistoryList p (recordList rs)) := by
      simp [onDataChanged, recordList, JSValue.truthy]
    rw [e]
    refine ⟨rfl, ?_⟩
    simp only [renderHistoryList]
    split <;> simp

/-- C14 (amended) on the first local save and on a remote save. -/
theorem refresh_by_mode_witness :
    Effect.render (recordList [sampleRecord]) ∈ (btnSaveClick calmPlatform .ok emptyLocal).2 ∧
    (btnSaveClick calmPlatform .ok readyRemote).1.currentRecords = readyRemote.currentRecords :=
  ⟨((refresh_by_mode calmPlatform .ok emptyLocal sampleContent rfl rfl).1 rfl [] rfl rfl
      (by decide) rfl).2,
    ((refresh_by_mode calmPlatform .ok readyRemote sampleContent rfl rfl).2.1 rfl).1⟩

end ContentGenerator
